import Mathlib

/-!
Verification of the booking coordination core of an event-ticketing backend
(Go, GORM/Postgres plus Redis).

Relational transactions are modelled as atomic state transitions on `DBState`
(row-level locks serialize them, per the source's transaction discipline).
The Redis seat-lock store and the waitlist store are modelled explicitly.
Timestamps are naturals counted in minutes; the Go zero `time.Time` value is
modelled as `0`.  Monetary amounts are copied, never computed with, so they
are modelled as naturals.
-/

namespace Evently

/-- Error values, after the constructors in pkg/errors/errors.go
(each carries a type tag and a message). -/
inductive AppError where
  | notFound (msg : String)
  | badRequest (msg : String)
  | conflict (msg : String)
  | unauthorized (msg : String)
  | internalError (msg : String)
deriving DecidableEq, Repr

/-! Constants from constants package (src/unnamed/part_013). -/

def intentStatusPending : String := "pending"

def intentStatusExpired : String := "expired"

def intentStatusConfirmed : String := "confirmed"

def intentStatusCancelled : String := "cancelled"

def bookingStatusConfirmed : String := "confirmed"

def bookingStatusCancelled : String := "cancelled"

def paymentStatusPaid : String := "paid"

def eventStatusActive : String := "active"

/-- SeatLockDuration = 8 (minutes). -/
def seatLockDuration : Nat := 8

def errSeatNotAvailable : String := "seat is not available"

def errSeatAlreadyLocked : String := "seat is already locked by another user"

def errBookingExpired : String := "booking intent has expired"

def errEventSoldOut : String := "event is sold out"

/-! Entities, after src/internal/entities/models.go (fields the modelled
operations read or write). -/

structure Venue where
  id : Nat
  capacity : Int
deriving DecidableEq, Repr

structure Event where
  id : Nat
  venueID : Nat
  startTime : Nat
  status : String
  availableSeats : Int
deriving DecidableEq, Repr

structure Seat where
  id : Nat
  eventID : Nat
  price : Nat
  isAvailable : Bool
  isLocked : Bool
  lockedAt : Option Nat
  lockedBy : Option Nat
deriving DecidableEq, Repr

structure BookingIntent where
  id : Nat
  userID : Nat
  eventID : Nat
  seatID : Nat
  status : String
  lockExpiresAt : Nat
  paymentIntentID : String
  createdAt : Nat
deriving DecidableEq, Repr

structure Booking where
  id : Nat
  userID : Nat
  eventID : Nat
  seatID : Nat
  bookingIntentID : Option Nat
  status : String
  paymentStatus : String
  paymentID : String
  totalAmount : Nat
  bookedAt : Nat
  cancelledAt : Option Nat
deriving DecidableEq, Repr

/-- EventQueue: the durable waitlist mirror row. -/
structure QueueRow where
  id : Nat
  eventID : Nat
  userID : Nat
  queuePosition : Nat
  status : String
  joinedAt : Nat
  activeAt : Option Nat
  expiresAt : Option Nat
deriving DecidableEq, Repr

/-- The relational store: one list of rows per table, plus auto-increment
counters for the primary keys GORM assigns on insert. -/
structure DBState where
  venues : List Venue
  events : List Event
  seats : List Seat
  intents : List BookingIntent
  bookings : List Booking
  queueRows : List QueueRow
  nextIntentID : Nat
  nextBookingID : Nat
  nextQueueID : Nat
deriving DecidableEq, Repr

/-- The Go zero-value `entities.Event` that GORM's `Preload` leaves behind
when the referenced event row does not exist. -/
def zeroEvent : Event :=
  { id := 0, venueID := 0, startTime := 0, status := "", availableSeats := 0 }

/-- BookingRepository.CreateBookingIntent (src/internal/repository/booking.go,
lines 27-127): load the seat with its event, validate availability, lock
state, event status, start time and capacity, insert a pending intent row and
lock the seat row.  GORM fills `CreatedAt` with the current time; the code
assigns no value to `LockExpiresAt`, so the zero time (here `0`) is inserted. -/
def createBookingIntent (db : DBState) (now userID seatID : Nat) :
    Except AppError BookingIntent × DBState :=
  match db.seats.find? (fun s => s.id == seatID) with
  | none => (.error (.notFound "Seat not found"), db)
  | some seat =>
    if seat.isAvailable = false then
      (.error (.badRequest errSeatNotAvailable), db)
    else if seat.isLocked = true then
      (.error (.conflict errSeatAlreadyLocked), db)
    else
      let event := ((db.events.find? (fun e => e.id == seat.eventID)).getD zeroEvent)
      if event.status ≠ eventStatusActive then
        (.error (.badRequest "Event is not active"), db)
      else if event.startTime < now then
        (.error (.badRequest "Event has already started"), db)
      else if event.availableSeats ≤ 0 then
        (.error (.badRequest errEventSoldOut), db)
      else
        let intent : BookingIntent :=
          { id := db.nextIntentID, userID := userID, eventID := seat.eventID,
            seatID := seatID, status := intentStatusPending,
            lockExpiresAt := 0, paymentIntentID := "", createdAt := now }
        let seats' := db.seats.map (fun s =>
          if s.id == seatID then
            { s with isLocked := true, lockedAt := some now, lockedBy := some userID }
          else s)
        (.ok intent,
         { db with intents := db.intents ++ [intent], seats := seats',
                   nextIntentID := db.nextIntentID + 1 })

/-- BookingRepository.ConfirmBooking (src/internal/repository/booking.go,
lines 130-245): load the intent by id with `status = pending`, reject if
`now` is strictly after `created_at + SeatLockDuration`, insert a confirmed
booking, mark the intent confirmed, free the seat, and decrement the event's
`available_seats` through the conditional update guarded by
`available_seats > 0`; zero affected rows aborts the whole transaction. -/
def confirmBooking (db : DBState) (now intentID : Nat) (paymentID : String) :
    Except AppError Booking × DBState :=
  match db.intents.find? (fun i => i.id == intentID && i.status == intentStatusPending) with
  | none => (.error (.notFound "Booking intent not found or already processed"), db)
  | some intent =>
    if intent.createdAt + seatLockDuration < now then
      (.error (.badRequest errBookingExpired), db)
    else
      let seatPrice := ((db.seats.find? (fun s => s.id == intent.seatID)).map (·.price)).getD 0
      let booking : Booking :=
        { id := db.nextBookingID, userID := intent.userID, eventID := intent.eventID,
          seatID := intent.seatID, bookingIntentID := some intent.id,
          status := bookingStatusConfirmed, paymentStatus := paymentStatusPaid,
          paymentID := paymentID, totalAmount := seatPrice, bookedAt := now,
          cancelledAt := none }
      if db.events.any (fun e => e.id == intent.eventID && 0 < e.availableSeats) then
        let intents' := db.intents.map (fun i =>
          if i.id == intent.id then
            { i with status := intentStatusConfirmed, paymentIntentID := paymentID }
          else i)
        let seats' := db.seats.map (fun s =>
          if s.id == intent.seatID then
            { s with isAvailable := false, isLocked := false, lockedAt := none, lockedBy := none }
          else s)
        let events' := db.events.map (fun e =>
          if e.id == intent.eventID && 0 < e.availableSeats then
            { e with availableSeats := e.availableSeats - 1 }
          else e)
        (.ok booking,
         { db with intents := intents', seats := seats', events := events',
                   bookings := db.bookings ++ [booking],
                   nextBookingID := db.nextBookingID + 1 })
      else
        (.error (.badRequest errEventSoldOut), db)

/-- BookingRepository.CancelBookingIntent (src/internal/repository/booking.go,
lines 248-294): load the caller's pending intent, mark it cancelled and clear
the seat's lock fields. -/
def cancelBookingIntent (db : DBState) (intentID userID : Nat) :
    Except AppError Unit × DBState :=
  match db.intents.find? (fun i =>
      i.id == intentID && i.userID == userID && i.status == intentStatusPending) with
  | none => (.error (.notFound "Booking intent not found"), db)
  | some intent =>
    let intents' := db.intents.map (fun i =>
      if i.id == intent.id then { i with status := intentStatusCancelled } else i)
    let seats' := db.seats.map (fun s =>
      if s.id == intent.seatID then
        { s with isLocked := false, lockedAt := none, lockedBy := none }
      else s)
    (.ok (), { db with intents := intents', seats := seats' })

/-- BookingRepository.CancelBooking (src/internal/repository/booking.go,
lines 297-348): load the caller's confirmed booking with its event, require
the event not to have started, mark the booking cancelled, make the seat
available again, and increment the event's `available_seats`. -/
def cancelBooking (db : DBState) (now bookingID userID : Nat) :
    Except AppError Unit × DBState :=
  match db.bookings.find? (fun b =>
      b.id == bookingID && b.userID == userID && b.status == bookingStatusConfirmed) with
  | none => (.error (.notFound "Booking not found"), db)
  | some booking =>
    let event := (db.events.find? (fun e => e.id == booking.eventID)).getD zeroEvent
    if event.startTime < now then
      (.error (.badRequest "Cannot cancel booking after event has started"), db)
    else
      let bookings' := db.bookings.map (fun b =>
        if b.id == booking.id then
          { b with status := bookingStatusCancelled, cancelledAt := some now }
        else b)
      let seats' := db.seats.map (fun s =>
        if s.id == booking.seatID then { s with isAvailable := true } else s)
      let events' := db.events.map (fun e =>
        if e.id == event.id then { e with availableSeats := e.availableSeats + 1 } else e)
      (.ok (), { db with bookings := bookings', seats := seats', events := events' })

/-- BookingRepository.CleanupExpiredIntents (src/internal/repository/booking.go,
lines 393-447): select intents with `status = pending AND lock_expires_at < now`,
mark them expired by id, and clear the lock fields of their seats by id. -/
def cleanupExpiredIntents (db : DBState) (now : Nat) : Except AppError Unit × DBState :=
  let expired := db.intents.filter (fun i =>
    i.status == intentStatusPending && i.lockExpiresAt < now)
  let intentIDs : List Nat := expired.map (·.id)
  let seatIDs : List Nat := expired.map (·.seatID)
  let intents' := db.intents.map (fun i =>
    if i.id ∈ intentIDs then { i with status := intentStatusExpired } else i)
  let seats' := db.seats.map (fun s =>
    if s.id ∈ seatIDs then { s with isLocked := false, lockedAt := none, lockedBy := none }
    else s)
  (.ok (), { db with intents := intents', seats := seats' })

/-- One booking-state-machine operation (the Redis best-effort calls do not
touch the relational store and are modelled separately). -/
inductive Op where
  | createIntent (now userID seatID : Nat)
  | confirm (now intentID : Nat) (paymentID : String)
  | cancelIntent (intentID userID : Nat)
  | cancelBook (now bookingID userID : Nat)
  | cleanup (now : Nat)
deriving DecidableEq, Repr

/-- Apply one operation to the relational store. -/
def runOp (db : DBState) : Op → DBState
  | .createIntent now u s => (createBookingIntent db now u s).2
  | .confirm now i p => (confirmBooking db now i p).2
  | .cancelIntent i u => (cancelBookingIntent db i u).2
  | .cancelBook now b u => (cancelBooking db now b u).2
  | .cleanup now => (cleanupExpiredIntents db now).2

/-- Apply a sequence of operations in order. -/
def runOps (db : DBState) : List Op → DBState
  | [] => db
  | op :: rest => runOps (runOp db op) rest

/-- Well-formedness of a relational state: primary keys are unique and below
the auto-increment counters, foreign keys of pending intents and of bookings
resolve, a seat's `is_locked` flag tracks the existence of a pending intent
for it, at most one pending intent and at most one confirmed booking exist
per seat, and a seat carrying a confirmed booking is neither available nor
under a pending intent. -/
structure WF (db : DBState) : Prop where
  seatsNodup : (db.seats.map (·.id)).Nodup
  eventsNodup : (db.events.map (·.id)).Nodup
  intentsNodup : (db.intents.map (·.id)).Nodup
  bookingsNodup : (db.bookings.map (·.id)).Nodup
  intentIdLt : ∀ i ∈ db.intents, i.id < db.nextIntentID
  bookingIdLt : ∀ b ∈ db.bookings, b.id < db.nextBookingID
  pendSeatEx : ∀ i ∈ db.intents, i.status = intentStatusPending →
    ∃ s ∈ db.seats, s.id = i.seatID
  bookEventEx : ∀ b ∈ db.bookings, ∃ e ∈ db.events, e.id = b.eventID
  lockIffPend : ∀ s ∈ db.seats,
    s.isLocked = true ↔ ∃ i ∈ db.intents, i.status = intentStatusPending ∧ i.seatID = s.id
  pendAtMostOne : ∀ i ∈ db.intents, ∀ j ∈ db.intents,
    i.status = intentStatusPending → j.status = intentStatusPending →
    i.seatID = j.seatID → i = j
  confAtMostOne : ∀ a ∈ db.bookings, ∀ b ∈ db.bookings,
    a.status = bookingStatusConfirmed → b.status = bookingStatusConfirmed →
    a.seatID = b.seatID → a = b
  confNoPend : ∀ b ∈ db.bookings, b.status = bookingStatusConfirmed →
    ∀ i ∈ db.intents, i.status = intentStatusPending → i.seatID ≠ b.seatID
  confNoAvail : ∀ b ∈ db.bookings, b.status = bookingStatusConfirmed →
    ∀ s ∈ db.seats, s.id = b.seatID → s.isAvailable = false

/-- Elements of a list with nodup keys that share a key are equal. -/
theorem eq_of_nodup_key {α : Type} {l : List α} {f : α → Nat}
    (hnd : (l.map f).Nodup) {x y : α} (hx : x ∈ l) (hy : y ∈ l)
    (hf : f x = f y) : x = y :=
  List.inj_on_of_nodup_map hnd hx hy hf

/-- A map that rewrites rows without changing their key leaves the key column
unchanged. -/
theorem map_key_map {α : Type} (l : List α) (f : α → Nat) (u : α → α)
    (h : ∀ x, f (u x) = f x) : (l.map u).map f = l.map f := by
  rw [List.map_map]
  exact List.map_congr_left (fun a _ => h a)

/-- In a duplicate-free list, a list of pairwise-equal selected rows has at
most one element. -/
theorem length_filter_le_one {α : Type} {l : List α} {p : α → Bool}
    (hnd : l.Nodup)
    (h : ∀ x ∈ l, ∀ y ∈ l, p x = true → p y = true → x = y) :
    (l.filter p).length ≤ 1 := by
  rcases hf : l.filter p with _ | ⟨a, _ | ⟨b, t⟩⟩
  · simp
  · simp
  · exfalso
    have ha : a ∈ l.filter p := by rw [hf]; simp
    have hb : b ∈ l.filter p := by rw [hf]; simp
    have hnd' := hnd.filter p
    rw [hf] at hnd'
    have hab : a = b := by
      rcases List.mem_filter.1 ha with ⟨ha1, ha2⟩
      rcases List.mem_filter.1 hb with ⟨hb1, hb2⟩
      exact h a ha1 b hb1 ha2 hb2
    rw [List.nodup_cons] at hnd'
    exact hnd'.1 (hab ▸ List.mem_cons_self b t)

/-- CreateBookingIntent preserves well-formedness. -/
theorem wf_createIntent (db : DBState) (now u sid : Nat) (h : WF db) :
    WF (createBookingIntent db now u sid).2 := by
  unfold createBookingIntent
  split
  · exact h
  rename_i seat hfind
  have hseat_mem : seat ∈ db.seats := List.mem_of_find?_eq_some hfind
  have hseat_id : seat.id = sid := by
    have := List.find?_some hfind
    simpa using this
  split
  · exact h
  rename_i hav
  split
  · exact h
  rename_i hlk
  have hav' : seat.isAvailable = true := by
    cases hx : seat.isAvailable
    · exact absurd hx hav
    · rfl
  have hlk' : seat.isLocked = false := by
    cases hx : seat.isLocked
    · rfl
    · exact absurd hx hlk
  dsimp only
  split
  · exact h
  split
  · exact h
  split
  · exact h
  dsimp only
  -- the committed state
  have hupd_id : ∀ s : Seat,
      (if s.id == sid then
        { s with isLocked := true, lockedAt := some now, lockedBy := some u }
      else s).id = s.id := by
    intro s; split <;> rfl
  have hupd_avail : ∀ s : Seat,
      (if s.id == sid then
        { s with isLocked := true, lockedAt := some now, lockedBy := some u }
      else s).isAvailable = s.isAvailable := by
    intro s; split <;> rfl
  have hnoPend : ∀ i ∈ db.intents, i.status = intentStatusPending → i.seatID ≠ sid := by
    intro i hi hip hsid
    have := (h.lockIffPend seat hseat_mem).2 ⟨i, hi, hip, by rw [hsid, hseat_id]⟩
    rw [hlk'] at this
    exact Bool.false_ne_true this
  refine ⟨?_, ?_, ?_, ?_, ?_, ?_, ?_, ?_, ?_, ?_, ?_, ?_, ?_⟩
  · rw [map_key_map _ _ _ hupd_id]; exact h.seatsNodup
  · exact h.eventsNodup
  · rw [List.map_append]
    rw [List.nodup_append]
    refine ⟨h.intentsNodup, by simp, ?_⟩
    intro x hx
    simp only [List.map_cons, List.map_nil, List.mem_singleton]
    intro hx'
    rcases List.mem_map.1 hx with ⟨i, hi, hix⟩
    have := h.intentIdLt i hi
    omega
  · exact h.bookingsNodup
  · intro i hi
    show i.id < db.nextIntentID + 1
    rcases List.mem_append.1 hi with hi | hi
    · have := h.intentIdLt i hi; omega
    · simp only [List.mem_singleton] at hi
      subst hi; simp
  · exact h.bookingIdLt
  · intro i hi hip
    rcases List.mem_append.1 hi with hi | hi
    · rcases h.pendSeatEx i hi hip with ⟨s, hs, hsid⟩
      exact ⟨_, List.mem_map_of_mem _ hs, by rw [hupd_id]; exact hsid⟩
    · simp only [List.mem_singleton] at hi
      subst hi
      exact ⟨_, List.mem_map_of_mem _ hseat_mem, by rw [hupd_id]; exact hseat_id⟩
  · exact h.bookEventEx
  · intro s' hs'
    rcases List.mem_map.1 hs' with ⟨s, hs, rfl⟩
    by_cases hcase : s.id = sid
    · constructor
      · intro _
        refine ⟨_, List.mem_append.2 (Or.inr (List.mem_singleton.2 rfl)), rfl, ?_⟩
        rw [hupd_id]; exact hcase.symm
      · intro _
        simp only [hcase, beq_self_eq_true, if_true]
    · have hbeq : (s.id == sid) = false := by simp [hcase]
      simp only [hbeq, Bool.false_eq_true, if_false]
      rw [h.lockIffPend s hs]
      constructor
      · rintro ⟨i, hi, hip, hisid⟩
        exact ⟨i, List.mem_append.2 (Or.inl hi), hip, hisid⟩
      · rintro ⟨i, hi, hip, hisid⟩
        rcases List.mem_append.1 hi with hi | hi
        · exact ⟨i, hi, hip, hisid⟩
        · simp only [List.mem_singleton] at hi
          subst hi
          exact absurd (show s.id = sid from (by simpa using hisid.symm)) hcase
  · intro i hi j hj hip hjp hsq
    rcases List.mem_append.1 hi with hi | hi <;> rcases List.mem_append.1 hj with hj | hj
    · exact h.pendAtMostOne i hi j hj hip hjp hsq
    · simp only [List.mem_singleton] at hj
      subst hj
      exact absurd hsq (hnoPend i hi hip)
    · simp only [List.mem_singleton] at hi
      subst hi
      exact absurd hsq.symm (hnoPend j hj hjp)
    · simp only [List.mem_singleton] at hi hj
      rw [hi, hj]
  · exact h.confAtMostOne
  · intro b hb hbc i hi hip
    rcases List.mem_append.1 hi with hi | hi
    · exact h.confNoPend b hb hbc i hi hip
    · simp only [List.mem_singleton] at hi
      subst hi
      intro hcon
      have := h.confNoAvail b hb hbc seat hseat_mem (by rw [hseat_id, ← hcon])
      rw [hav'] at this
      exact Bool.noConfusion this
  · intro b hb hbc s' hs' hsid
    rcases List.mem_map.1 hs' with ⟨s, hs, rfl⟩
    rw [hupd_avail]
    exact h.confNoAvail b hb hbc s hs (by rw [← hupd_id s]; exact hsid)

/-- ConfirmBooking preserves well-formedness. -/
theorem wf_confirm (db : DBState) (now iid : Nat) (pay : String) (h : WF db) :
    WF (confirmBooking db now iid pay).2 := by
  unfold confirmBooking
  split
  · exact h
  rename_i intent hfind
  have hint_mem : intent ∈ db.intents := List.mem_of_find?_eq_some hfind
  have hint_pend : intent.status = intentStatusPending := by
    have := List.find?_some hfind
    simp only [Bool.and_eq_true, beq_iff_eq] at this
    exact this.2
  split
  · exact h
  dsimp only
  split
  case isFalse => exact h
  rename_i hguard
  have hupd_iid : ∀ i : BookingIntent,
      (if i.id == intent.id then
        { i with status := intentStatusConfirmed, paymentIntentID := pay }
      else i).id = i.id := by
    intro i; split <;> rfl
  have hupd_sid : ∀ s : Seat,
      (if s.id == intent.seatID then
        { s with isAvailable := false, isLocked := false, lockedAt := none, lockedBy := none }
      else s).id = s.id := by
    intro s; split <;> rfl
  have hupd_eid : ∀ e : Event,
      (if e.id == intent.eventID && decide (0 < e.availableSeats) then
        { e with availableSeats := e.availableSeats - 1 }
      else e).id = e.id := by
    intro e; split <;> rfl
  have honlyPend : ∀ j ∈ db.intents, j.status = intentStatusPending →
      j.seatID = intent.seatID → j = intent := by
    intro j hj hjp hjs
    exact h.pendAtMostOne j hj intent hint_mem hjp hint_pend hjs
  have hid_inj : ∀ j ∈ db.intents, j.id = intent.id → j = intent := by
    intro j hj hje
    exact eq_of_nodup_key h.intentsNodup hj hint_mem hje
  have hnoConfSeat : ∀ b ∈ db.bookings, b.status = bookingStatusConfirmed →
      b.seatID ≠ intent.seatID := by
    intro b hb hbc hcon
    exact h.confNoPend b hb hbc intent hint_mem hint_pend hcon.symm
  -- classify updated intents: the updated row is not pending, others unchanged
  have hpend_src : ∀ i ∈ db.intents,
      (if i.id == intent.id then
        { i with status := intentStatusConfirmed, paymentIntentID := pay }
      else i).status = intentStatusPending →
      (i.id == intent.id) = false ∧ i.status = intentStatusPending := by
    intro i _ hp
    by_cases hc : i.id = intent.id
    · exfalso
      simp only [hc, beq_self_eq_true, if_true] at hp
      exact absurd hp (by decide)
    · have : (i.id == intent.id) = false := by simp [hc]
      rw [this, if_neg (by simp)] at hp
      · exact ⟨this, hp⟩
  refine ⟨?_, ?_, ?_, ?_, ?_, ?_, ?_, ?_, ?_, ?_, ?_, ?_, ?_⟩
  · rw [map_key_map _ _ _ hupd_sid]; exact h.seatsNodup
  · rw [map_key_map _ _ _ hupd_eid]; exact h.eventsNodup
  · rw [map_key_map _ _ _ hupd_iid]; exact h.intentsNodup
  · rw [List.map_append, List.nodup_append]
    refine ⟨h.bookingsNodup, by simp, ?_⟩
    intro x hx
    simp only [List.map_cons, List.map_nil, List.mem_singleton]
    intro hx'
    rcases List.mem_map.1 hx with ⟨b, hb, hbx⟩
    have := h.bookingIdLt b hb
    omega
  · intro i hi
    show i.id < db.nextIntentID
    rcases List.mem_map.1 hi with ⟨j, hj, rfl⟩
    rw [hupd_iid]
    exact h.intentIdLt j hj
  · intro b hb
    show b.id < db.nextBookingID + 1
    rcases List.mem_append.1 hb with hb | hb
    · have := h.bookingIdLt b hb; omega
    · simp only [List.mem_singleton] at hb
      subst hb; simp
  · intro i' hi' hip
    rcases List.mem_map.1 hi' with ⟨i, hi, rfl⟩
    rcases hpend_src i hi hip with ⟨hne, hpi⟩
    rw [hne, if_neg (by simp)]
    rw [hne, if_neg (by simp)] at hip
    rcases h.pendSeatEx i hi hpi with ⟨s, hs, hsid⟩
    exact ⟨_, List.mem_map_of_mem _ hs, by rw [hupd_sid]; exact hsid⟩
  · intro b hb
    rcases List.mem_append.1 hb with hb | hb
    · rcases h.bookEventEx b hb with ⟨e, he, heid⟩
      exact ⟨_, List.mem_map_of_mem _ he, by rw [hupd_eid]; exact heid⟩
    · simp only [List.mem_singleton] at hb
      subst hb
      rcases List.any_eq_true.1 hguard with ⟨e, he, hec⟩
      simp only [Bool.and_eq_true, beq_iff_eq] at hec
      exact ⟨_, List.mem_map_of_mem _ he, by rw [hupd_eid]; exact hec.1⟩
  · intro s' hs'
    rcases List.mem_map.1 hs' with ⟨s, hs, rfl⟩
    by_cases hcase : s.id = intent.seatID
    · simp only [hcase, beq_self_eq_true, if_true]
      constructor
      · intro hfalse
        exact absurd hfalse (by simp)
      · rintro ⟨i', hi', hip, hisid⟩
        exfalso
        rcases List.mem_map.1 hi' with ⟨i, hi, rfl⟩
        rcases hpend_src i hi hip with ⟨hne, hpi⟩
        rw [hne, if_neg (by simp)] at hisid
        have hseq : i.seatID = intent.seatID := by simpa [hcase] using hisid
        have := honlyPend i hi hpi hseq
        rw [this] at hne
        simp at hne
    · have hbeq : (s.id == intent.seatID) = false := by simp [hcase]
      simp only [hbeq, Bool.false_eq_true, if_false]
      rw [h.lockIffPend s hs]
      constructor
      · rintro ⟨j, hj, hjp, hjs⟩
        have hjne : (j.id == intent.id) = false := by
          by_cases hc : j.id = intent.id
          · exfalso
            have := hid_inj j hj hc
            rw [this] at hjs
            exact hcase hjs.symm
          · simp [hc]
        refine ⟨_, List.mem_map_of_mem _ hj, ?_, ?_⟩
        · rw [hjne, if_neg (by simp)]; exact hjp
        · rw [hjne, if_neg (by simp)]; exact hjs
      · rintro ⟨i', hi', hip, hisid⟩
        rcases List.mem_map.1 hi' with ⟨i, hi, rfl⟩
        rcases hpend_src i hi hip with ⟨hne, hpi⟩
        rw [hne, if_neg (by simp)] at hisid
        exact ⟨i, hi, hpi, hisid⟩
  · intro i' hi' j' hj' hip hjp hsq
    rcases List.mem_map.1 hi' with ⟨i, hi, rfl⟩
    rcases List.mem_map.1 hj' with ⟨j, hj, rfl⟩
    rcases hpend_src i hi hip with ⟨hine, hpi⟩
    rcases hpend_src j hj hjp with ⟨hjne, hpj⟩
    rw [hine, if_neg (by simp)] at hsq ⊢
    rw [hjne, if_neg (by simp)] at hsq ⊢
    exact h.pendAtMostOne i hi j hj hpi hpj hsq
  · intro a ha b hb hac hbc hsq
    rcases List.mem_append.1 ha with ha | ha <;> rcases List.mem_append.1 hb with hb | hb
    · exact h.confAtMostOne a ha b hb hac hbc hsq
    · simp only [List.mem_singleton] at hb
      subst hb
      exact absurd hsq (hnoConfSeat a ha hac)
    · simp only [List.mem_singleton] at ha
      subst ha
      exact absurd hsq.symm (hnoConfSeat b hb hbc)
    · simp only [List.mem_singleton] at ha hb
      rw [ha, hb]
  · intro b hb hbc i' hi' hip
    rcases List.mem_map.1 hi' with ⟨i, hi, rfl⟩
    rcases hpend_src i hi hip with ⟨hine, hpi⟩
    rw [hine, if_neg (by simp)]
    rcases List.mem_append.1 hb with hb | hb
    · exact h.confNoPend b hb hbc i hi hpi
    · simp only [List.mem_singleton] at hb
      subst hb
      intro hcon
      have := honlyPend i hi hpi hcon
      rw [this] at hine
      simp at hine
  · intro b hb hbc s' hs' hsid
    rcases List.mem_map.1 hs' with ⟨s, hs, rfl⟩
    by_cases hcase : s.id = intent.seatID
    · simp only [hcase, beq_self_eq_true, if_true]
    · have hbeq : (s.id == intent.seatID) = false := by simp [hcase]
      rw [hbeq, if_neg (by simp)] at hsid ⊢
      rcases List.mem_append.1 hb with hb | hb
      · exact h.confNoAvail b hb hbc s hs hsid
      · simp only [List.mem_singleton] at hb
        subst hb
        exact absurd (show s.id = intent.seatID from hsid) hcase

/-- CancelBookingIntent preserves well-formedness. -/
theorem wf_cancelIntent (db : DBState) (iid uid : Nat) (h : WF db) :
    WF (cancelBookingIntent db iid uid).2 := by
  unfold cancelBookingIntent
  split
  · exact h
  rename_i intent hfind
  have hint_mem : intent ∈ db.intents := List.mem_of_find?_eq_some hfind
  have hint_pend : intent.status = intentStatusPending := by
    have := List.find?_some hfind
    simp only [Bool.and_eq_true, beq_iff_eq] at this
    exact this.2
  have hupd_iid : ∀ i : BookingIntent,
      (if i.id == intent.id then { i with status := intentStatusCancelled } else i).id
        = i.id := by
    intro i; split <;> rfl
  have hupd_sid : ∀ s : Seat,
      (if s.id == intent.seatID then
        { s with isLocked := false, lockedAt := none, lockedBy := none }
      else s).id = s.id := by
    intro s; split <;> rfl
  have hupd_sav : ∀ s : Seat,
      (if s.id == intent.seatID then
        { s with isLocked := false, lockedAt := none, lockedBy := none }
      else s).isAvailable = s.isAvailable := by
    intro s; split <;> rfl
  have honlyPend : ∀ j ∈ db.intents, j.status = intentStatusPending →
      j.seatID = intent.seatID → j = intent := by
    intro j hj hjp hjs
    exact h.pendAtMostOne j hj intent hint_mem hjp hint_pend hjs
  have hid_inj : ∀ j ∈ db.intents, j.id = intent.id → j = intent := by
    intro j hj hje
    exact eq_of_nodup_key h.intentsNodup hj hint_mem hje
  have hpend_src : ∀ i ∈ db.intents,
      (if i.id == intent.id then { i with status := intentStatusCancelled } else i).status
        = intentStatusPending →
      (i.id == intent.id) = false ∧ i.status = intentStatusPending := by
    intro i _ hp
    by_cases hc : i.id = intent.id
    · exfalso
      simp only [hc, beq_self_eq_true, if_true] at hp
      exact absurd hp (by decide)
    · have : (i.id == intent.id) = false := by simp [hc]
      rw [this, if_neg (by simp)] at hp
      · exact ⟨this, hp⟩
  refine ⟨?_, ?_, ?_, ?_, ?_, ?_, ?_, ?_, ?_, ?_, ?_, ?_, ?_⟩
  · rw [map_key_map _ _ _ hupd_sid]; exact h.seatsNodup
  · exact h.eventsNodup
  · rw [map_key_map _ _ _ hupd_iid]; exact h.intentsNodup
  · exact h.bookingsNodup
  · intro i hi
    show i.id < db.nextIntentID
    rcases List.mem_map.1 hi with ⟨j, hj, rfl⟩
    rw [hupd_iid]
    exact h.intentIdLt j hj
  · exact h.bookingIdLt
  · intro i' hi' hip
    rcases List.mem_map.1 hi' with ⟨i, hi, rfl⟩
    rcases hpend_src i hi hip with ⟨hne, hpi⟩
    rw [hne, if_neg (by simp)]
    rcases h.pendSeatEx i hi hpi with ⟨s, hs, hsid⟩
    exact ⟨_, List.mem_map_of_mem _ hs, by rw [hupd_sid]; exact hsid⟩
  · exact h.bookEventEx
  · intro s' hs'
    rcases List.mem_map.1 hs' with ⟨s, hs, rfl⟩
    by_cases hcase : s.id = intent.seatID
    · simp only [hcase, beq_self_eq_true, if_true]
      constructor
      · intro hfalse
        exact absurd hfalse (by simp)
      · rintro ⟨i', hi', hip, hisid⟩
        exfalso
        rcases List.mem_map.1 hi' with ⟨i, hi, rfl⟩
        rcases hpend_src i hi hip with ⟨hne, hpi⟩
        rw [hne, if_neg (by simp)] at hisid
        have hseq : i.seatID = intent.seatID := by simpa [hcase] using hisid
        have := honlyPend i hi hpi hseq
        rw [this] at hne
        simp at hne
    · have hbeq : (s.id == intent.seatID) = false := by simp [hcase]
      simp only [hbeq, Bool.false_eq_true, if_false]
      rw [h.lockIffPend s hs]
      constructor
      · rintro ⟨j, hj, hjp, hjs⟩
        have hjne : (j.id == intent.id) = false := by
          by_cases hc : j.id = intent.id
          · exfalso
            have := hid_inj j hj hc
            rw [this] at hjs
            exact hcase hjs.symm
          · simp [hc]
        refine ⟨_, List.mem_map_of_mem _ hj, ?_, ?_⟩
        · rw [hjne, if_neg (by simp)]; exact hjp
        · rw [hjne, if_neg (by simp)]; exact hjs
      · rintro ⟨i', hi', hip, hisid⟩
        rcases List.mem_map.1 hi' with ⟨i, hi, rfl⟩
        rcases hpend_src i hi hip with ⟨hne, hpi⟩
        rw [hne, if_neg (by simp)] at hisid
        exact ⟨i, hi, hpi, hisid⟩
  · intro i' hi' j' hj' hip hjp hsq
    rcases List.mem_map.1 hi' with ⟨i, hi, rfl⟩
    rcases List.mem_map.1 hj' with ⟨j, hj, rfl⟩
    rcases hpend_src i hi hip with ⟨hine, hpi⟩
    rcases hpend_src j hj hjp with ⟨hjne, hpj⟩
    rw [hine, if_neg (by simp)] at hsq ⊢
    rw [hjne, if_neg (by simp)] at hsq ⊢
    exact h.pendAtMostOne i hi j hj hpi hpj hsq
  · exact h.confAtMostOne
  · intro b hb hbc i' hi' hip
    rcases List.mem_map.1 hi' with ⟨i, hi, rfl⟩
    rcases hpend_src i hi hip with ⟨hine, hpi⟩
    rw [hine, if_neg (by simp)]
    exact h.confNoPend b hb hbc i hi hpi
  · intro b hb hbc s' hs' hsid
    rcases List.mem_map.1 hs' with ⟨s, hs, rfl⟩
    rw [hupd_sav]
    exact h.confNoAvail b hb hbc s hs (by rw [← hupd_sid s]; exact hsid)

/-- CancelBooking preserves well-formedness. -/
theorem wf_cancelBook (db : DBState) (now bid uid : Nat) (h : WF db) :
    WF (cancelBooking db now bid uid).2 := by
  unfold cancelBooking
  split
  · exact h
  rename_i booking hfind
  have hbk_mem : booking ∈ db.bookings := List.mem_of_find?_eq_some hfind
  have hbk_conf : booking.status = bookingStatusConfirmed := by
    have := List.find?_some hfind
    simp only [Bool.and_eq_true, beq_iff_eq] at this
    exact this.2
  dsimp only
  split
  · exact h
  have hupd_bid : ∀ b : Booking,
      (if b.id == booking.id then
        { b with status := bookingStatusCancelled, cancelledAt := some now }
      else b).id = b.id := by
    intro b; split <;> rfl
  have hupd_bev : ∀ b : Booking,
      (if b.id == booking.id then
        { b with status := bookingStatusCancelled, cancelledAt := some now }
      else b).eventID = b.eventID := by
    intro b; split <;> rfl
  have hupd_sid : ∀ s : Seat,
      (if s.id == booking.seatID then { s with isAvailable := true } else s).id = s.id := by
    intro s; split <;> rfl
  have hupd_slk : ∀ s : Seat,
      (if s.id == booking.seatID then { s with isAvailable := true } else s).isLocked
        = s.isLocked := by
    intro s; split <;> rfl
  have hupd_eid : ∀ e : Event,
      (if e.id == ((db.events.find? (fun e => e.id == booking.eventID)).getD zeroEvent).id then
        { e with availableSeats := e.availableSeats + 1 }
      else e).id = e.id := by
    intro e; split <;> rfl
  have honlyConf : ∀ a ∈ db.bookings, a.status = bookingStatusConfirmed →
      a.seatID = booking.seatID → a = booking := by
    intro a ha hac has
    exact h.confAtMostOne a ha booking hbk_mem hac hbk_conf has
  have hconf_src : ∀ b ∈ db.bookings,
      (if b.id == booking.id then
        { b with status := bookingStatusCancelled, cancelledAt := some now }
      else b).status = bookingStatusConfirmed →
      (b.id == booking.id) = false ∧ b.status = bookingStatusConfirmed := by
    intro b _ hp
    by_cases hc : b.id = booking.id
    · exfalso
      simp only [hc, beq_self_eq_true, if_true] at hp
      exact absurd hp (by decide)
    · have : (b.id == booking.id) = false := by simp [hc]
      rw [this, if_neg (by simp)] at hp
      · exact ⟨this, hp⟩
  refine ⟨?_, ?_, ?_, ?_, ?_, ?_, ?_, ?_, ?_, ?_, ?_, ?_, ?_⟩
  · rw [map_key_map _ _ _ hupd_sid]; exact h.seatsNodup
  · rw [map_key_map _ _ _ hupd_eid]; exact h.eventsNodup
  · exact h.intentsNodup
  · rw [map_key_map _ _ _ hupd_bid]; exact h.bookingsNodup
  · exact h.intentIdLt
  · intro b hb
    show b.id < db.nextBookingID
    rcases List.mem_map.1 hb with ⟨b0, hb0, rfl⟩
    rw [hupd_bid]
    exact h.bookingIdLt b0 hb0
  · intro i hi hip
    rcases h.pendSeatEx i hi hip with ⟨s, hs, hsid⟩
    exact ⟨_, List.mem_map_of_mem _ hs, by rw [hupd_sid]; exact hsid⟩
  · intro b' hb'
    rcases List.mem_map.1 hb' with ⟨b0, hb0, rfl⟩
    rcases h.bookEventEx b0 hb0 with ⟨e, he, heid⟩
    refine ⟨_, List.mem_map_of_mem _ he, ?_⟩
    rw [hupd_eid, hupd_bev]
    exact heid
  · intro s' hs'
    rcases List.mem_map.1 hs' with ⟨s, hs, rfl⟩
    rw [hupd_slk]
    have hsid : (if s.id == booking.seatID then { s with isAvailable := true } else s).id
        = s.id := hupd_sid s
    rw [hsid]
    rw [h.lockIffPend s hs]
  · exact h.pendAtMostOne
  · intro a' ha' b' hb' hac hbc hsq
    rcases List.mem_map.1 ha' with ⟨a0, ha0, rfl⟩
    rcases List.mem_map.1 hb' with ⟨b0, hb0, rfl⟩
    rcases hconf_src a0 ha0 hac with ⟨hane, hac0⟩
    rcases hconf_src b0 hb0 hbc with ⟨hbne, hbc0⟩
    rw [hane, if_neg (by simp)] at hsq ⊢
    rw [hbne, if_neg (by simp)] at hsq ⊢
    exact h.confAtMostOne a0 ha0 b0 hb0 hac0 hbc0 hsq
  · intro b' hb' hbc i hi hip
    rcases List.mem_map.1 hb' with ⟨b0, hb0, rfl⟩
    rcases hconf_src b0 hb0 hbc with ⟨hbne, hbc0⟩
    rw [hbne, if_neg (by simp)]
    exact h.confNoPend b0 hb0 hbc0 i hi hip
  · intro b' hb' hbc s' hs' hsid
    rcases List.mem_map.1 hb' with ⟨b0, hb0, rfl⟩
    rcases hconf_src b0 hb0 hbc with ⟨hbne, hbc0⟩
    rcases List.mem_map.1 hs' with ⟨s, hs, rfl⟩
    simp only [hbne, Bool.false_eq_true, if_false] at hsid
    by_cases hcase : s.id = booking.seatID
    · exfalso
      have hb0s : b0.seatID = booking.seatID := by simpa [hcase] using hsid.symm
      have := honlyConf b0 hb0 hbc0 hb0s
      rw [this] at hbne
      simp at hbne
    · have hbeq : (s.id == booking.seatID) = false := by simp [hcase]
      simp only [hbeq, Bool.false_eq_true, if_false] at hsid ⊢
      exact h.confNoAvail b0 hb0 hbc0 s hs hsid

/-- CleanupExpiredIntents preserves well-formedness. -/
theorem wf_cleanup (db : DBState) (now : Nat) (h : WF db) :
    WF (cleanupExpiredIntents db now).2 := by
  unfold cleanupExpiredIntents
  dsimp only
  set sel : BookingIntent → Bool :=
    fun i => i.status == intentStatusPending && decide (i.lockExpiresAt < now) with hsel
  set intentIDs : List Nat := (db.intents.filter sel).map (·.id) with hIID
  set seatIDs : List Nat := (db.intents.filter sel).map (·.seatID) with hSID
  have hsel_pend : ∀ i : BookingIntent, sel i = true → i.status = intentStatusPending := by
    intro i hi
    rw [hsel] at hi
    simp only [Bool.and_eq_true, beq_iff_eq] at hi
    exact hi.1
  have hA : ∀ i ∈ db.intents, i.id ∈ intentIDs ↔ sel i = true := by
    intro i hi
    constructor
    · intro hmem
      rw [hIID] at hmem
      rcases List.mem_map.1 hmem with ⟨j, hj, hje⟩
      rcases List.mem_filter.1 hj with ⟨hjm, hjs⟩
      have := eq_of_nodup_key h.intentsNodup hjm hi hje
      rw [← this]
      exact hjs
    · intro hs
      rw [hIID]
      exact List.mem_map_of_mem _ (List.mem_filter.2 ⟨hi, hs⟩)
  have hB : ∀ sid : Nat, sid ∈ seatIDs ↔ ∃ j ∈ db.intents, sel j = true ∧ j.seatID = sid := by
    intro sid
    constructor
    · intro hmem
      rw [hSID] at hmem
      rcases List.mem_map.1 hmem with ⟨j, hj, hje⟩
      rcases List.mem_filter.1 hj with ⟨hjm, hjs⟩
      exact ⟨j, hjm, hjs, hje⟩
    · rintro ⟨j, hj, hjs, hje⟩
      rw [hSID]
      exact hje ▸ List.mem_map_of_mem _ (List.mem_filter.2 ⟨hj, hjs⟩)
  have hupd_iid : ∀ i : BookingIntent,
      (if i.id ∈ intentIDs then { i with status := intentStatusExpired } else i).id
        = i.id := by
    intro i; split <;> rfl
  have hupd_sid : ∀ s : Seat,
      (if s.id ∈ seatIDs then { s with isLocked := false, lockedAt := none, lockedBy := none }
       else s).id = s.id := by
    intro s; split <;> rfl
  have hupd_sav : ∀ s : Seat,
      (if s.id ∈ seatIDs then { s with isLocked := false, lockedAt := none, lockedBy := none }
       else s).isAvailable = s.isAvailable := by
    intro s; split <;> rfl
  have hpend_src : ∀ i ∈ db.intents,
      (if i.id ∈ intentIDs then { i with status := intentStatusExpired } else i).status
        = intentStatusPending →
      i.id ∉ intentIDs ∧ i.status = intentStatusPending ∧ sel i = false := by
    intro i hi hp
    by_cases hc : i.id ∈ intentIDs
    · exfalso
      rw [if_pos hc] at hp
      simp [intentStatusExpired, intentStatusPending] at hp
    · rw [if_neg hc] at hp
      refine ⟨hc, hp, ?_⟩
      cases hx : sel i
      · rfl
      · exact absurd ((hA i hi).2 hx) hc
  refine ⟨?_, ?_, ?_, ?_, ?_, ?_, ?_, ?_, ?_, ?_, ?_, ?_, ?_⟩
  · rw [map_key_map _ _ _ hupd_sid]; exact h.seatsNodup
  · exact h.eventsNodup
  · rw [map_key_map _ _ _ hupd_iid]; exact h.intentsNodup
  · exact h.bookingsNodup
  · intro i hi
    show i.id < db.nextIntentID
    rcases List.mem_map.1 hi with ⟨j, hj, rfl⟩
    rw [hupd_iid]
    exact h.intentIdLt j hj
  · exact h.bookingIdLt
  · intro i' hi' hip
    rcases List.mem_map.1 hi' with ⟨i, hi, rfl⟩
    rcases hpend_src i hi hip with ⟨hni, hpi, _⟩
    rw [if_neg hni]
    rcases h.pendSeatEx i hi hpi with ⟨s, hs, hsid⟩
    exact ⟨_, List.mem_map_of_mem _ hs, by rw [hupd_sid]; exact hsid⟩
  · exact h.bookEventEx
  · intro s' hs'
    rcases List.mem_map.1 hs' with ⟨s, hs, rfl⟩
    by_cases hcase : s.id ∈ seatIDs
    · rw [if_pos hcase]
      constructor
      · intro hfalse
        exact absurd hfalse (by simp)
      · rintro ⟨i', hi', hip, hisid⟩
        exfalso
        rcases List.mem_map.1 hi' with ⟨i, hi, rfl⟩
        rcases hpend_src i hi hip with ⟨hni, hpi, _⟩
        rw [if_neg hni] at hisid
        have hisid' : i.seatID = s.id := by simpa using hisid
        rcases (hB s.id).1 hcase with ⟨j, hj, hjs, hje⟩
        have hjp : j.status = intentStatusPending := hsel_pend j hjs
        have : i = j := h.pendAtMostOne i hi j hj hpi hjp (by rw [hisid', hje])
        rw [this] at hni
        exact hni ((hA j hj).2 hjs)
    · rw [if_neg hcase]
      rw [h.lockIffPend s hs]
      constructor
      · rintro ⟨j, hj, hjp, hjs⟩
        have hjn : j.id ∉ intentIDs := by
          intro hmem
          have hjsel := (hA j hj).1 hmem
          exact hcase ((hB s.id).2 ⟨j, hj, hjsel, hjs⟩)
        refine ⟨_, List.mem_map_of_mem _ hj, ?_, ?_⟩
        · rw [if_neg hjn]; exact hjp
        · rw [if_neg hjn]; exact hjs
      · rintro ⟨i', hi', hip, hisid⟩
        rcases List.mem_map.1 hi' with ⟨i, hi, rfl⟩
        rcases hpend_src i hi hip with ⟨hni, hpi, _⟩
        rw [if_neg hni] at hisid
        exact ⟨i, hi, hpi, hisid⟩
  · intro i' hi' j' hj' hip hjp hsq
    rcases List.mem_map.1 hi' with ⟨i, hi, rfl⟩
    rcases List.mem_map.1 hj' with ⟨j, hj, rfl⟩
    rcases hpend_src i hi hip with ⟨hni, hpi, _⟩
    rcases hpend_src j hj hjp with ⟨hnj, hpj, _⟩
    rw [if_neg hni] at hsq ⊢
    rw [if_neg hnj] at hsq ⊢
    exact h.pendAtMostOne i hi j hj hpi hpj hsq
  · exact h.confAtMostOne
  · intro b hb hbc i' hi' hip
    rcases List.mem_map.1 hi' with ⟨i, hi, rfl⟩
    rcases hpend_src i hi hip with ⟨hni, hpi, _⟩
    rw [if_neg hni]
    exact h.confNoPend b hb hbc i hi hpi
  · intro b hb hbc s' hs' hsid
    rcases List.mem_map.1 hs' with ⟨s, hs, rfl⟩
    rw [hupd_sav]
    exact h.confNoAvail b hb hbc s hs (by rw [← hupd_sid s]; exact hsid)

/-- Every operation preserves well-formedness. -/
theorem wf_runOp (db : DBState) (op : Op) (h : WF db) : WF (runOp db op) := by
  cases op with
  | createIntent now u s => exact wf_createIntent db now u s h
  | confirm now i p => exact wf_confirm db now i p h
  | cancelIntent i u => exact wf_cancelIntent db i u h
  | cancelBook now b u => exact wf_cancelBook db now b u h
  | cleanup now => exact wf_cleanup db now h

/-- Any sequence of operations preserves well-formedness. -/
theorem wf_runOps (db : DBState) (ops : List Op) (h : WF db) : WF (runOps db ops) := by
  induction ops generalizing db with
  | nil => exact h
  | cons op rest ih => exact ih (runOp db op) (wf_runOp db op h)

/-- No operation ever returns an intent row to the pending status: an intent
known to be non-pending stays non-pending. -/
theorem nonpending_stable_op (db : DBState) (op : Op) (iid : Nat)
    (h : ∃ i ∈ db.intents, i.id = iid ∧ i.status ≠ intentStatusPending) :
    ∃ i ∈ (runOp db op).intents, i.id = iid ∧ i.status ≠ intentStatusPending := by
  rcases h with ⟨i, hi, hid, hs⟩
  cases op with
  | createIntent now u sid =>
    show ∃ j ∈ (createBookingIntent db now u sid).2.intents,
      j.id = iid ∧ j.status ≠ intentStatusPending
    unfold createBookingIntent
    split
    · exact ⟨i, hi, hid, hs⟩
    split
    · exact ⟨i, hi, hid, hs⟩
    split
    · exact ⟨i, hi, hid, hs⟩
    dsimp only
    split
    · exact ⟨i, hi, hid, hs⟩
    split
    · exact ⟨i, hi, hid, hs⟩
    split
    · exact ⟨i, hi, hid, hs⟩
    exact ⟨i, List.mem_append.2 (Or.inl hi), hid, hs⟩
  | confirm now tid pay =>
    show ∃ j ∈ (confirmBooking db now tid pay).2.intents,
      j.id = iid ∧ j.status ≠ intentStatusPending
    unfold confirmBooking
    split
    · exact ⟨i, hi, hid, hs⟩
    rename_i intent hfind
    split
    · exact ⟨i, hi, hid, hs⟩
    dsimp only
    split
    case isFalse => exact ⟨i, hi, hid, hs⟩
    refine ⟨_, List.mem_map_of_mem _ hi, ?_, ?_⟩
    · show (if i.id == intent.id then
          { i with status := intentStatusConfirmed, paymentIntentID := pay } else i).id = iid
      split <;> exact hid
    · show (if i.id == intent.id then
          { i with status := intentStatusConfirmed, paymentIntentID := pay } else i).status
        ≠ intentStatusPending
      split
      · show intentStatusConfirmed ≠ intentStatusPending
        decide
      · exact hs
  | cancelIntent tid uid =>
    show ∃ j ∈ (cancelBookingIntent db tid uid).2.intents,
      j.id = iid ∧ j.status ≠ intentStatusPending
    unfold cancelBookingIntent
    split
    · exact ⟨i, hi, hid, hs⟩
    rename_i intent hfind
    refine ⟨_, List.mem_map_of_mem _ hi, ?_, ?_⟩
    · show (if i.id == intent.id then
          { i with status := intentStatusCancelled } else i).id = iid
      split <;> exact hid
    · show (if i.id == intent.id then
          { i with status := intentStatusCancelled } else i).status ≠ intentStatusPending
      split
      · show intentStatusCancelled ≠ intentStatusPending
        decide
      · exact hs
  | cancelBook now bid uid =>
    show ∃ j ∈ (cancelBooking db now bid uid).2.intents,
      j.id = iid ∧ j.status ≠ intentStatusPending
    unfold cancelBooking
    split
    · exact ⟨i, hi, hid, hs⟩
    dsimp only
    split
    · exact ⟨i, hi, hid, hs⟩
    exact ⟨i, hi, hid, hs⟩
  | cleanup now =>
    show ∃ j ∈ (cleanupExpiredIntents db now).2.intents,
      j.id = iid ∧ j.status ≠ intentStatusPending
    unfold cleanupExpiredIntents
    dsimp only
    refine ⟨_, List.mem_map_of_mem _ hi, ?_, ?_⟩
    · show (if i.id ∈ (db.intents.filter _).map (·.id) then
          { i with status := intentStatusExpired } else i).id = iid
      split <;> exact hid
    · show (if i.id ∈ (db.intents.filter _).map (·.id) then
          { i with status := intentStatusExpired } else i).status ≠ intentStatusPending
      split
      · show intentStatusExpired ≠ intentStatusPending
        decide
      · exact hs

/-- Non-pending intents stay non-pending under any operation sequence. -/
theorem nonpending_stable_runOps (db : DBState) (ops : List Op) (iid : Nat)
    (h : ∃ i ∈ db.intents, i.id = iid ∧ i.status ≠ intentStatusPending) :
    ∃ i ∈ (runOps db ops).intents, i.id = iid ∧ i.status ≠ intentStatusPending := by
  induction ops generalizing db with
  | nil => exact h
  | cons op rest ih => exact ih (runOp db op) (nonpending_stable_op db op iid h)

/-- C1: No double-booking.  For every sequence of booking-state-machine
operations from a well-formed state, at most one booking row with
`status = confirmed` exists for any seat at any time; and once
`ConfirmBooking` has succeeded for an intent, any later `ConfirmBooking`
call on the same intent (after any further operations) fails with the
not-found error because the intent is no longer pending, and it leaves the
store unchanged, creating no second booking row. -/
theorem C1_no_double_booking (db0 : DBState) (h0 : WF db0) (ops : List Op) :
    (∀ sid : Nat,
      ((runOps db0 ops).bookings.filter
        (fun b => b.status == bookingStatusConfirmed && b.seatID == sid)).length ≤ 1)
    ∧ (∀ now iid : Nat, ∀ pay : String, ∀ b : Booking, ∀ db' : DBState,
        confirmBooking (runOps db0 ops) now iid pay = (.ok b, db') →
        ∀ ops2 : List Op, ∀ now2 : Nat, ∀ pay2 : String,
          confirmBooking (runOps db' ops2) now2 iid pay2
            = (.error (.notFound "Booking intent not found or already processed"),
               runOps db' ops2)) := by
  have hwfA : WF (runOps db0 ops) := wf_runOps db0 ops h0
  constructor
  · intro sid
    apply length_filter_le_one (hwfA.bookingsNodup.of_map)
    intro x hx y hy hpx hpy
    simp only [Bool.and_eq_true, beq_iff_eq] at hpx hpy
    exact hwfA.confAtMostOne x hx y hy hpx.1 hpy.1 (by rw [hpx.2, hpy.2])
  · intro now iid pay b db' hconf ops2 now2 pay2
    have hwf' : WF db' := by
      have := wf_confirm (runOps db0 ops) now iid pay hwfA
      rw [hconf] at this
      exact this
    have hnp : ∃ i ∈ db'.intents, i.id = iid ∧ i.status ≠ intentStatusPending := by
      unfold confirmBooking at hconf
      split at hconf
      · exact absurd (congrArg Prod.fst hconf) (by simp)
      rename_i intent hfind
      have hint_mem : intent ∈ (runOps db0 ops).intents := List.mem_of_find?_eq_some hfind
      have hint_id : intent.id = iid := by
        have := List.find?_some hfind
        simp only [Bool.and_eq_true, beq_iff_eq] at this
        exact this.1
      split at hconf
      · exact absurd (congrArg Prod.fst hconf) (by simp)
      dsimp only at hconf
      split at hconf
      case isFalse => exact absurd (congrArg Prod.fst hconf) (by simp)
      have hsnd := congrArg Prod.snd hconf
      dsimp only at hsnd
      rw [← hsnd]
      refine ⟨_, List.mem_map_of_mem _ hint_mem, ?_, ?_⟩
      · show (if intent.id == intent.id then
            { intent with status := intentStatusConfirmed, paymentIntentID := pay }
          else intent).id = iid
        rw [if_pos (by simp)]
        exact hint_id
      · show (if intent.id == intent.id then
            { intent with status := intentStatusConfirmed, paymentIntentID := pay }
          else intent).status ≠ intentStatusPending
        rw [if_pos (by simp)]
        show intentStatusConfirmed ≠ intentStatusPending
        decide
    have hwf2 : WF (runOps db' ops2) := wf_runOps db' ops2 hwf'
    rcases nonpending_stable_runOps db' ops2 iid hnp with ⟨j, hj, hjid, hjs⟩
    have hnone : (runOps db' ops2).intents.find?
        (fun i => i.id == iid && i.status == intentStatusPending) = none := by
      rw [List.find?_eq_none]
      intro x hx hpx
      simp only [Bool.and_eq_true, beq_iff_eq] at hpx
      have hxj : x = j :=
        eq_of_nodup_key hwf2.intentsNodup hx hj (by rw [hpx.1, hjid])
      rw [hxj] at hpx
      exact hjs hpx.2
    unfold confirmBooking
    rw [hnone]

/-- A small concrete store: one venue, one active future event with two
seats, both free. -/
def c1db0 : DBState :=
  { venues := [{ id := 1, capacity := 2 }],
    events := [{ id := 1, venueID := 1, startTime := 1000, status := eventStatusActive,
                 availableSeats := 2 }],
    seats := [{ id := 1, eventID := 1, price := 50, isAvailable := true, isLocked := false,
                lockedAt := none, lockedBy := none },
              { id := 2, eventID := 1, price := 50, isAvailable := true, isLocked := false,
                lockedAt := none, lockedBy := none }],
    intents := [], bookings := [], queueRows := [],
    nextIntentID := 1, nextBookingID := 1, nextQueueID := 1 }

def c1ops : List Op := [.createIntent 10 7 1, .confirm 11 1 "pay-77"]

/-- Witness for C1 at a concrete store and operation sequence. -/
theorem C1_no_double_booking_witness :
    WF c1db0
    ∧ (∀ sid : Nat,
        ((runOps c1db0 c1ops).bookings.filter
          (fun b => b.status == bookingStatusConfirmed && b.seatID == sid)).length ≤ 1) :=
  ⟨by refine ⟨?_, ?_, ?_, ?_, ?_, ?_, ?_, ?_, ?_, ?_, ?_, ?_, ?_⟩ <;> decide,
   (C1_no_double_booking c1db0
     (by refine ⟨?_, ?_, ?_, ?_, ?_, ?_, ?_, ?_, ?_, ?_, ?_, ?_, ?_⟩ <;> decide) c1ops).1⟩

/-- Every event row has a non-negative `available_seats` counter. -/
def Nonneg (db : DBState) : Prop := ∀ e ∈ db.events, 0 ≤ e.availableSeats

/-- One operation preserves counter non-negativity. -/
theorem nonneg_runOp (db : DBState) (op : Op) (h : Nonneg db) : Nonneg (runOp db op) := by
  cases op with
  | createIntent now u sid =>
    show Nonneg (createBookingIntent db now u sid).2
    unfold createBookingIntent
    split
    · exact h
    split
    · exact h
    split
    · exact h
    dsimp only
    split
    · exact h
    split
    · exact h
    split
    · exact h
    exact h
  | confirm now tid pay =>
    show Nonneg (confirmBooking db now tid pay).2
    unfold confirmBooking
    split
    · exact h
    rename_i intent hfind
    split
    · exact h
    dsimp only
    split
    case isFalse => exact h
    intro e' he'
    rcases List.mem_map.1 he' with ⟨e, he, rfl⟩
    by_cases hc : (e.id == intent.eventID && decide (0 < e.availableSeats)) = true
    · rw [if_pos hc]
      simp only [Bool.and_eq_true, decide_eq_true_eq] at hc
      show (0 : Int) ≤ e.availableSeats - 1
      omega
    · rw [if_neg hc]
      exact h e he
  | cancelIntent tid uid =>
    show Nonneg (cancelBookingIntent db tid uid).2
    unfold cancelBookingIntent
    split
    · exact h
    exact h
  | cancelBook now bid uid =>
    show Nonneg (cancelBooking db now bid uid).2
    unfold cancelBooking
    split
    · exact h
    dsimp only
    split
    · exact h
    intro e' he'
    rcases List.mem_map.1 he' with ⟨e, he, rfl⟩
    have := h e he
    split
    · show (0 : Int) ≤ e.availableSeats + 1
      omega
    · exact this
  | cleanup now =>
    show Nonneg (cleanupExpiredIntents db now).2
    unfold cleanupExpiredIntents
    exact h

/-- C4: Capacity non-negativity.  From any state with non-negative
`available_seats`, every operation sequence keeps every event's
`available_seats` non-negative; and when the conditional decrement guarded by
`available_seats > 0` matches zero rows, ConfirmBooking fails with the
event-sold-out error and rolls the transaction back, leaving the store
unchanged so that no booking row persists. -/
theorem C4_capacity_nonneg :
    (∀ db0 : DBState, Nonneg db0 → ∀ ops : List Op, Nonneg (runOps db0 ops))
    ∧ (∀ db : DBState, ∀ now iid : Nat, ∀ pay : String, ∀ intent : BookingIntent,
        db.intents.find? (fun i => i.id == iid && i.status == intentStatusPending)
          = some intent →
        ¬ intent.createdAt + seatLockDuration < now →
        (¬ ∃ e ∈ db.events, e.id = intent.eventID ∧ 0 < e.availableSeats) →
        confirmBooking db now iid pay = (.error (.badRequest errEventSoldOut), db)) := by
  constructor
  · intro db0 h ops
    induction ops generalizing db0 with
    | nil => exact h
    | cons op rest ih => exact ih (runOp db0 op) (nonneg_runOp db0 op h)
  · intro db now iid pay intent hfind hexp hnoev
    have hany : (db.events.any (fun e => e.id == intent.eventID && 0 < e.availableSeats))
        = false := by
      rw [Bool.eq_false_iff]
      intro hx
      rcases List.any_eq_true.1 hx with ⟨e, he, hc⟩
      simp only [Bool.and_eq_true, beq_iff_eq, decide_eq_true_eq] at hc
      exact hnoev ⟨e, he, hc.1, hc.2⟩
    unfold confirmBooking
    rw [hfind]
    dsimp only
    rw [if_neg hexp]
    simp only [hany, Bool.false_eq_true, if_false]

/-- A pending intent on a sold-out event. -/
def c4intent : BookingIntent :=
  { id := 1, userID := 7, eventID := 1, seatID := 1, status := intentStatusPending,
    lockExpiresAt := 0, paymentIntentID := "", createdAt := 0 }

/-- A store whose only event has `available_seats = 0` while a pending intent
exists. -/
def c4db : DBState :=
  { venues := [{ id := 1, capacity := 1 }],
    events := [{ id := 1, venueID := 1, startTime := 1000, status := eventStatusActive,
                 availableSeats := 0 }],
    seats := [{ id := 1, eventID := 1, price := 50, isAvailable := true, isLocked := true,
                lockedAt := some 0, lockedBy := some 7 }],
    intents := [c4intent], bookings := [], queueRows := [],
    nextIntentID := 2, nextBookingID := 1, nextQueueID := 1 }

/-- Witness for C4 at concrete stores: a two-operation run from a
non-negative state, and a sold-out confirmation attempt. -/
theorem C4_capacity_nonneg_witness :
    (Nonneg c1db0 ∧ Nonneg (runOps c1db0 c1ops))
    ∧ ((c4db.intents.find? (fun i => i.id == 1 && i.status == intentStatusPending)
          = some c4intent)
        ∧ ¬ c4intent.createdAt + seatLockDuration < 5
        ∧ (¬ ∃ e ∈ c4db.events, e.id = c4intent.eventID ∧ 0 < e.availableSeats)
        ∧ confirmBooking c4db 5 1 "pay-9" = (.error (.badRequest errEventSoldOut), c4db)) :=
  ⟨⟨by unfold Nonneg; decide, (C4_capacity_nonneg.1 c1db0 (by unfold Nonneg; decide) c1ops)⟩,
   ⟨by decide, by decide, by decide,
    C4_capacity_nonneg.2 c4db 5 1 "pay-9" c4intent (by decide) (by decide) (by decide)⟩⟩

/-- Effect of an update of one keyed row on a filtered row count. -/
theorem filter_length_map_update (l : List Booking)
    (hnd : (l.map (·.id)).Nodup) (b0 : Booking) (hb0 : b0 ∈ l)
    (f : Booking → Booking) (p : Booking → Bool) :
    ((l.map (fun b => if b.id == b0.id then f b else b)).filter p).length
      + (if p b0 then 1 else 0)
    = (l.filter p).length + (if p (f b0) then 1 else 0) := by
  rcases List.append_of_mem hb0 with ⟨l1, l2, rfl⟩
  rw [List.map_append, List.map_cons] at hnd
  rw [List.nodup_append] at hnd
  rcases hnd with ⟨hnd1, hnd2, hdisj⟩
  rw [List.nodup_cons] at hnd2
  have hne1 : ∀ x ∈ l1, (x.id == b0.id) = false := by
    intro x hx
    have hnm := hdisj (List.mem_map_of_mem _ hx)
    have hx' : x.id ≠ b0.id := fun hcon => hnm (List.mem_cons.2 (Or.inl hcon))
    simp [hx']
  have hne2 : ∀ x ∈ l2, (x.id == b0.id) = false := by
    intro x hx
    have hx' : x.id ≠ b0.id := by
      intro hcon
      exact hnd2.1 (hcon ▸ List.mem_map_of_mem _ hx)
    simp [hx']
  have hmap1 : l1.map (fun b => if b.id == b0.id then f b else b) = l1 := by
    conv_rhs => rw [← List.map_id l1]
    apply List.map_congr_left
    intro a ha
    rw [hne1 a ha, if_neg (by simp)]
    rfl
  have hmap2 : l2.map (fun b => if b.id == b0.id then f b else b) = l2 := by
    conv_rhs => rw [← List.map_id l2]
    apply List.map_congr_left
    intro a ha
    rw [hne2 a ha, if_neg (by simp)]
    rfl
  rw [List.map_append, List.map_cons, hmap1, hmap2, if_pos (by simp)]
  rw [List.filter_append, List.filter_append, List.filter_cons, List.filter_cons]
  by_cases hp0 : p b0 = true <;> by_cases hpf : p (f b0) = true <;>
    simp [hp0, hpf, List.length_append] <;> omega

/-- Number of confirmed booking rows of an event. -/
def confirmedCountEvent (db : DBState) (eid : Nat) : Nat :=
  (db.bookings.filter (fun b => b.status == bookingStatusConfirmed && b.eventID == eid)).length

/-- Number of pending intent rows of an event. -/
def pendingCountEvent (db : DBState) (eid : Nat) : Nat :=
  (db.intents.filter (fun i => i.status == intentStatusPending && i.eventID == eid)).length

/-- Capacity of the venue a row points at (0 when the venue is missing). -/
def venueCapacity (db : DBState) (vid : Nat) : Int :=
  ((db.venues.find? (fun v => v.id == vid)).map (·.capacity)).getD 0

/-- The capacity ledger the code actually maintains:
`available_seats + count(confirmed bookings) = venue capacity`. -/
def CapEq (db : DBState) : Prop :=
  ∀ e ∈ db.events,
    e.availableSeats + (confirmedCountEvent db e.id : Int) = venueCapacity db e.venueID

/-- ConfirmBooking preserves the capacity ledger. -/
theorem capEq_confirm (db : DBState) (now iid : Nat) (pay : String)
    (h : WF db) (hc : CapEq db) : CapEq (confirmBooking db now iid pay).2 := by
  unfold confirmBooking
  split
  · exact hc
  rename_i intent hfind
  split
  · exact hc
  dsimp only
  split
  case isFalse => exact hc
  rename_i hguard
  rcases List.any_eq_true.1 hguard with ⟨e0, he0, he0c⟩
  simp only [Bool.and_eq_true, beq_iff_eq, decide_eq_true_eq] at he0c
  intro e' he'
  unfold confirmedCountEvent venueCapacity
  dsimp only
  rcases List.mem_map.1 he' with ⟨e, he, rfl⟩
  have hid : (if e.id == intent.eventID && decide (0 < e.availableSeats) then
      { e with availableSeats := e.availableSeats - 1 } else e).id = e.id := by
    split <;> rfl
  have hven : (if e.id == intent.eventID && decide (0 < e.availableSeats) then
      { e with availableSeats := e.availableSeats - 1 } else e).venueID = e.venueID := by
    split <;> rfl
  rw [List.filter_append]
  simp only [hid, hven, List.length_append, List.filter_cons, List.filter_nil]
  have hbase := hc e he
  unfold confirmedCountEvent venueCapacity at hbase
  by_cases hcase : e.id = intent.eventID
  · have hee0 : e = e0 := eq_of_nodup_key h.eventsNodup he he0 (by rw [hcase, he0c.1])
    have hpos : 0 < e.availableSeats := hee0 ▸ he0c.2
    have hcond : (e.id == intent.eventID && decide (0 < e.availableSeats)) = true := by
      simp [hcase, hpos]
    simp only [hcond, if_true]
    have hsel : ((⟨db.nextBookingID, intent.userID, intent.eventID, intent.seatID,
        some intent.id, bookingStatusConfirmed, paymentStatusPaid, pay,
        ((db.seats.find? (fun s => s.id == intent.seatID)).map (·.price)).getD 0,
        now, none⟩ : Booking).status == bookingStatusConfirmed
        && (⟨db.nextBookingID, intent.userID, intent.eventID, intent.seatID,
        some intent.id, bookingStatusConfirmed, paymentStatusPaid, pay,
        ((db.seats.find? (fun s => s.id == intent.seatID)).map (·.price)).getD 0,
        now, none⟩ : Booking).eventID == e.id) = true := by
      simp [hcase]
    simp only [hsel, if_true, List.length_cons, List.length_nil]
    show e.availableSeats - 1
        + (((db.bookings.filter (fun b => b.status == bookingStatusConfirmed
            && b.eventID == e.id)).length + 1 : Nat) : Int)
      = ((db.venues.find? (fun v => v.id == e.venueID)).map (·.capacity)).getD 0
    push_cast
    push_cast at hbase
    omega
  · have hcond : (e.id == intent.eventID && decide (0 < e.availableSeats)) = false := by
      simp [hcase]
    simp only [hcond, Bool.false_eq_true, if_false]
    have hsel : ((⟨db.nextBookingID, intent.userID, intent.eventID, intent.seatID,
        some intent.id, bookingStatusConfirmed, paymentStatusPaid, pay,
        ((db.seats.find? (fun s => s.id == intent.seatID)).map (·.price)).getD 0,
        now, none⟩ : Booking).status == bookingStatusConfirmed
        && (⟨db.nextBookingID, intent.userID, intent.eventID, intent.seatID,
        some intent.id, bookingStatusConfirmed, paymentStatusPaid, pay,
        ((db.seats.find? (fun s => s.id == intent.seatID)).map (·.price)).getD 0,
        now, none⟩ : Booking).eventID == e.id) = false := by
      have : (intent.eventID == e.id) = false := by
        simp only [beq_eq_false_iff_ne, ne_eq]
        intro hcon
        exact hcase hcon.symm
      simp [this]
    simp only [hsel, Bool.false_eq_true, if_false, List.length_nil]
    simpa using hbase

/-- CancelBooking preserves the capacity ledger. -/
theorem capEq_cancelBook (db : DBState) (now bid uid : Nat)
    (h : WF db) (hc : CapEq db) : CapEq (cancelBooking db now bid uid).2 := by
  unfold cancelBooking
  split
  · exact hc
  rename_i booking hfind
  have hbk_mem : booking ∈ db.bookings := List.mem_of_find?_eq_some hfind
  have hbk_conf : booking.status = bookingStatusConfirmed := by
    have := List.find?_some hfind
    simp only [Bool.and_eq_true, beq_iff_eq] at this
    exact this.2
  rcases h.bookEventEx booking hbk_mem with ⟨e0, he0, he0id⟩
  have hfs : db.events.find? (fun e => e.id == booking.eventID) ≠ none := by
    intro hnone
    rw [List.find?_eq_none] at hnone
    exact hnone e0 he0 (by simp [he0id])
  rcases hev : db.events.find? (fun e => e.id == booking.eventID) with _ | ev
  · exact absurd hev hfs
  have hev_id : ev.id = booking.eventID := by
    have := List.find?_some hev
    simpa using this
  dsimp only
  rw [hev]
  simp only [Option.getD_some]
  split
  · exact hc
  intro e' he'
  rcases List.mem_map.1 he' with ⟨e, he, rfl⟩
  unfold confirmedCountEvent venueCapacity
  dsimp only
  have hid : (if e.id == ev.id then { e with availableSeats := e.availableSeats + 1 }
      else e).id = e.id := by
    split <;> rfl
  have hven : (if e.id == ev.id then { e with availableSeats := e.availableSeats + 1 }
      else e).venueID = e.venueID := by
    split <;> rfl
  simp only [hid, hven]
  have hbase := hc e he
  unfold confirmedCountEvent venueCapacity at hbase
  have hcnt := filter_length_map_update db.bookings h.bookingsNodup booking hbk_mem
      (fun b => { b with status := bookingStatusCancelled, cancelledAt := some now })
      (fun b => b.status == bookingStatusConfirmed && b.eventID == e.id)
  dsimp only at hcnt
  by_cases hcase : e.id = booking.eventID
  · have hcond : (e.id == ev.id) = true := by simp [hcase, hev_id]
    simp only [hcond, if_true]
    rw [if_pos (by simp [hbk_conf, hcase]),
        if_neg (by simp [bookingStatusCancelled, bookingStatusConfirmed])] at hcnt
    push_cast
    push_cast at hbase
    omega
  · have hcond : (e.id == ev.id) = false := by
      rw [hev_id]
      simp only [beq_eq_false_iff_ne, ne_eq]
      intro hcon
      exact hcase hcon
    simp only [hcond, Bool.false_eq_true, if_false]
    have hnb : (booking.eventID == e.id) = false := by
      simp only [beq_eq_false_iff_ne, ne_eq]
      intro hcon
      exact hcase hcon.symm
    rw [if_neg (by simp [hnb]), if_neg (by simp [hnb])] at hcnt
    push_cast
    push_cast at hbase
    omega

/-- Every operation preserves the capacity ledger. -/
theorem capEq_runOp (db : DBState) (op : Op) (h : WF db) (hc : CapEq db) :
    CapEq (runOp db op) := by
  cases op with
  | createIntent now u sid =>
    show CapEq (createBookingIntent db now u sid).2
    unfold createBookingIntent
    split
    · exact hc
    split
    · exact hc
    split
    · exact hc
    dsimp only
    split
    · exact hc
    split
    · exact hc
    split
    · exact hc
    intro e he
    exact hc e he
  | confirm now tid pay => exact capEq_confirm db now tid pay h hc
  | cancelIntent tid uid =>
    show CapEq (cancelBookingIntent db tid uid).2
    unfold cancelBookingIntent
    split
    · exact hc
    intro e he
    exact hc e he
  | cancelBook now bid uid => exact capEq_cancelBook db now bid uid h hc
  | cleanup now =>
    show CapEq (cleanupExpiredIntents db now).2
    unfold cleanupExpiredIntents
    intro e he
    exact hc e he

/-- C3 counterexample: the claimed equation
`available_seats + confirmed + pending = capacity` fails after a single
successful CreateBookingIntent, because intent creation inserts a pending
intent without adjusting `available_seats`. -/
theorem C3_counterexample :
    ¬ (∀ e ∈ (runOps c1db0 [Op.createIntent 10 7 1]).events,
        e.availableSeats
          + (confirmedCountEvent (runOps c1db0 [Op.createIntent 10 7 1]) e.id : Int)
          + (pendingCountEvent (runOps c1db0 [Op.createIntent 10 7 1]) e.id : Int)
        = venueCapacity (runOps c1db0 [Op.createIntent 10 7 1]) e.venueID) := by
  decide

/-- C3 (amended): capacity accounting without pending intents.  From any
well-formed state whose events satisfy
`available_seats + count(confirmed bookings) = venue capacity`, every
operation sequence preserves that equation: only ConfirmBooking decrements
and only CancelBooking increments `available_seats`, in step with the
confirmed-booking count; CreateBookingIntent and intent
cancellation or expiry leave the counter untouched, so pending intents are
not part of the ledger. -/
theorem C3_capacity_accounting (db0 : DBState) (h0 : WF db0) (hc0 : CapEq db0)
    (ops : List Op) : CapEq (runOps db0 ops) := by
  induction ops generalizing db0 with
  | nil => exact hc0
  | cons op rest ih =>
    exact ih (runOp db0 op) (wf_runOp db0 op h0) (capEq_runOp db0 op h0 hc0)

/-- Witness for the amended C3 at a concrete store and operation sequence. -/
theorem C3_capacity_accounting_witness :
    WF c1db0 ∧ CapEq c1db0 ∧ CapEq (runOps c1db0 c1ops) :=
  ⟨by refine ⟨?_, ?_, ?_, ?_, ?_, ?_, ?_, ?_, ?_, ?_, ?_, ?_, ?_⟩ <;> decide,
   by unfold CapEq; decide,
   C3_capacity_accounting c1db0
     (by refine ⟨?_, ?_, ?_, ?_, ?_, ?_, ?_, ?_, ?_, ?_, ?_, ?_, ?_⟩ <;> decide)
     (by unfold CapEq; decide) c1ops⟩

/-- C5: Expired confirmation is rejected atomically.  When ConfirmBooking
loads a pending intent, it fails with the booking-expired error and leaves
the whole store unchanged (no booking row, intent, seat and event counter
untouched) precisely when called strictly later than
`created_at + SeatLockDuration`; at or before that instant the expiry check
passes and the booking-expired error cannot be returned. -/
theorem C5_expired_confirm_rejected (db : DBState) (now iid : Nat) (pay : String)
    (intent : BookingIntent)
    (hfind : db.intents.find? (fun i => i.id == iid && i.status == intentStatusPending)
      = some intent) :
    (intent.createdAt + seatLockDuration < now →
      confirmBooking db now iid pay = (.error (.badRequest errBookingExpired), db))
    ∧ (¬ intent.createdAt + seatLockDuration < now →
      (confirmBooking db now iid pay).1 ≠ .error (.badRequest errBookingExpired)) := by
  constructor
  · intro hexp
    unfold confirmBooking
    rw [hfind]
    dsimp only
    rw [if_pos hexp]
  · intro hexp
    unfold confirmBooking
    rw [hfind]
    dsimp only
    rw [if_neg hexp]
    split
    · intro hcon
      dsimp only at hcon
      exact Except.noConfusion hcon
    · intro hcon
      dsimp only at hcon
      injection hcon with h1
      injection h1 with h2
      exact absurd h2 (by decide)

/-- Witness for C5 at a concrete store: the same pending intent is rejected
at `now = 9` (strictly past `created_at + 8`) and not booking-expired-rejected
at `now = 8`. -/
theorem C5_expired_confirm_rejected_witness :
    (c4db.intents.find? (fun i => i.id == 1 && i.status == intentStatusPending)
        = some c4intent)
    ∧ (c4intent.createdAt + seatLockDuration < 9
        ∧ confirmBooking c4db 9 1 "pay-1" = (.error (.badRequest errBookingExpired), c4db))
    ∧ (¬ c4intent.createdAt + seatLockDuration < 8
        ∧ (confirmBooking c4db 8 1 "pay-1").1 ≠ .error (.badRequest errBookingExpired)) :=
  ⟨by decide,
   ⟨by decide,
    (C5_expired_confirm_rejected c4db 9 1 "pay-1" c4intent (by decide)).1 (by decide)⟩,
   ⟨by decide,
    (C5_expired_confirm_rejected c4db 8 1 "pay-1" c4intent (by decide)).2 (by decide)⟩⟩

/-- The intent row CreateBookingIntent inserts for `c1db0` at time 10: the
code assigns no value to `lock_expires_at`, so the zero time is stored. -/
def c2intent : BookingIntent :=
  { id := 1, userID := 7, eventID := 1, seatID := 1, status := intentStatusPending,
    lockExpiresAt := 0, paymentIntentID := "", createdAt := 10 }

/-- C2 (evaluation at the failing input): a successful CreateBookingIntent at
time 10 inserts a pending intent whose `lock_expires_at` is the zero time,
not `now + SeatLockDuration`; consequently CleanupExpiredIntents run at the
very same instant already selects the fresh intent (its criterion
`status = pending AND lock_expires_at < now` holds) and marks it expired. -/
theorem C2_lock_expiry_bug :
    ((createBookingIntent c1db0 10 7 1).1 = .ok c2intent
      ∧ c2intent.lockExpiresAt = 0
      ∧ c2intent.lockExpiresAt ≠ 10 + seatLockDuration)
    ∧ (∃ i ∈ (cleanupExpiredIntents (createBookingIntent c1db0 10 7 1).2 10).2.intents,
        i.id = c2intent.id ∧ i.status = intentStatusExpired) :=
  ⟨⟨rfl, rfl, by decide⟩, by decide⟩

/-- HTTP outcome of the booking handler, after
src/internal/handlers/booking.go. -/
inductive HandlerResp where
  | success (b : Booking)
  | forbidden
  | failure (e : AppError)
deriving DecidableEq, Repr

/-- BookingHandler.ConfirmBooking (src/internal/handlers/booking.go, lines
88-157): the handler calls the booking service with only the intent id and
payment id; only after the transaction has committed does it compare the
booking's owner with the authenticated caller, answering 403 Forbidden
without undoing anything. -/
def handlerConfirmBooking (db : DBState) (now callerID iid : Nat) (pay : String) :
    HandlerResp × DBState :=
  match confirmBooking db now iid pay with
  | (.error e, db') => (.failure e, db')
  | (.ok b, db') =>
    if b.userID ≠ callerID then (.forbidden, db')
    else (.success b, db')

/-- C10: ConfirmBooking has no caller-ownership precondition.  The repository
operation takes only the intent id and payment id, never returns an
unauthorized error, and succeeds for any pending, unexpired intent whose
event still has capacity, creating a booking owned by the intent's user;
the handler checks ownership only after the transaction has committed, so a
non-owner caller receives 403 Forbidden while the booking row (and the
capacity decrement) persists in the final state. -/
theorem C10_confirm_no_ownership_check :
    (∀ db : DBState, ∀ now iid : Nat, ∀ pay msg : String,
        (confirmBooking db now iid pay).1 ≠ .error (.unauthorized msg))
    ∧ (∀ db : DBState, ∀ now iid : Nat, ∀ pay : String, ∀ intent : BookingIntent,
        db.intents.find? (fun i => i.id == iid && i.status == intentStatusPending)
          = some intent →
        ¬ intent.createdAt + seatLockDuration < now →
        (db.events.any (fun e => e.id == intent.eventID && 0 < e.availableSeats)) = true →
        ∃ b : Booking, ∃ db' : DBState,
          confirmBooking db now iid pay = (.ok b, db')
          ∧ b.userID = intent.userID
          ∧ ∀ callerID : Nat, callerID ≠ intent.userID →
              handlerConfirmBooking db now callerID iid pay = (.forbidden, db')
              ∧ b ∈ db'.bookings ∧ b.status = bookingStatusConfirmed) := by
  constructor
  · intro db now iid pay msg
    unfold confirmBooking
    split
    · intro hcon
      dsimp only at hcon
      injection hcon with h1
      exact AppError.noConfusion h1
    split
    · intro hcon
      dsimp only at hcon
      injection hcon with h1
      exact AppError.noConfusion h1
    dsimp only
    split
    · intro hcon
      dsimp only at hcon
      exact Except.noConfusion hcon
    · intro hcon
      dsimp only at hcon
      injection hcon with h1
      exact AppError.noConfusion h1
  · intro db now iid pay intent hfind hexp hguard
    have hcb : confirmBooking db now iid pay
        = (.ok (⟨db.nextBookingID, intent.userID, intent.eventID, intent.seatID,
            some intent.id, bookingStatusConfirmed, paymentStatusPaid, pay,
            ((db.seats.find? (fun s => s.id == intent.seatID)).map (·.price)).getD 0,
            now, none⟩ : Booking),
           { db with
              intents := db.intents.map (fun i =>
                if i.id == intent.id then
                  { i with status := intentStatusConfirmed, paymentIntentID := pay }
                else i),
              seats := db.seats.map (fun s =>
                if s.id == intent.seatID then
                  { s with isAvailable := false, isLocked := false, lockedAt := none, lockedBy := none }
                else s),
              events := db.events.map (fun e =>
                if e.id == intent.eventID && 0 < e.availableSeats then
                  { e with availableSeats := e.availableSeats - 1 }
                else e),
              bookings := db.bookings ++ [⟨db.nextBookingID, intent.userID,
                intent.eventID, intent.seatID, some intent.id, bookingStatusConfirmed,
                paymentStatusPaid, pay,
                ((db.seats.find? (fun s => s.id == intent.seatID)).map (·.price)).getD 0,
                now, none⟩],
              nextBookingID := db.nextBookingID + 1 }) := by
      unfold confirmBooking
      rw [hfind]
      dsimp only
      rw [if_neg hexp]
      simp only [hguard, if_true]
    refine ⟨_, _, hcb, rfl, ?_⟩
    intro callerID hcaller
    refine ⟨?_, ?_, rfl⟩
    · unfold handlerConfirmBooking
      rw [hcb]
      dsimp only
      rw [if_pos ?_]
      show intent.userID ≠ callerID
      exact fun hcon => hcaller hcon.symm
    · exact List.mem_append.2 (Or.inr (List.mem_singleton.2 rfl))

/-- A store holding a pending unexpired intent of user 7 on an event with
one seat left. -/
def c10db : DBState :=
  { venues := [{ id := 1, capacity := 1 }],
    events := [{ id := 1, venueID := 1, startTime := 1000, status := eventStatusActive,
                 availableSeats := 1 }],
    seats := [{ id := 1, eventID := 1, price := 50, isAvailable := true, isLocked := true,
                lockedAt := some 0, lockedBy := some 7 }],
    intents := [c4intent], bookings := [], queueRows := [],
    nextIntentID := 2, nextBookingID := 1, nextQueueID := 1 }

/-- Witness for C10: caller 8 confirms user 7's intent; the repository
succeeds for the non-owner and the handler replies 403 after commit. -/
theorem C10_confirm_no_ownership_check_witness :
    ((confirmBooking c10db 5 1 "pay-z").1 ≠ .error (.unauthorized "x"))
    ∧ (∃ b : Booking, ∃ db' : DBState,
        confirmBooking c10db 5 1 "pay-z" = (.ok b, db')
        ∧ b.userID = c4intent.userID
        ∧ ∀ callerID : Nat, callerID ≠ c4intent.userID →
            handlerConfirmBooking c10db 5 callerID 1 "pay-z" = (.forbidden, db')
            ∧ b ∈ db'.bookings ∧ b.status = bookingStatusConfirmed) :=
  ⟨C10_confirm_no_ownership_check.1 c10db 5 1 "pay-z" "x",
   C10_confirm_no_ownership_check.2 c10db 5 1 "pay-z" c4intent
     (by decide) (by decide) (by decide)⟩

/-! The ephemeral seat-lock store (Redis), after
services.SeatLockService in src/unnamed/part_000.  A key is live while
`now < expiresAt`; lapsed entries behave as absent, as Redis TTLs do. -/

structure RedisEntry where
  key : String
  value : String
  expiresAt : Nat
deriving DecidableEq, Repr

structure RedisStore where
  entries : List RedisEntry
deriving DecidableEq, Repr

/-- GET: the value of a live key. -/
def redisGet (st : RedisStore) (now : Nat) (key : String) : Option String :=
  (st.entries.find? (fun e => e.key == key && now < e.expiresAt)).map (·.value)

/-- SET with a TTL (replaces any previous entry under the key). -/
def redisSet (st : RedisStore) (now : Nat) (key value : String) (ttl : Nat) : RedisStore :=
  { entries := { key := key, value := value, expiresAt := now + ttl }
      :: st.entries.filter (fun e => e.key != key) }

/-- DEL. -/
def redisDel (st : RedisStore) (key : String) : RedisStore :=
  { entries := st.entries.filter (fun e => e.key != key) }

/-- EXPIRE: reset the TTL of a key. -/
def redisExpire (st : RedisStore) (now : Nat) (key : String) (ttl : Nat) : RedisStore :=
  { entries := st.entries.map (fun e =>
      if e.key == key then { e with expiresAt := now + ttl } else e) }

/-- The key format `seat_lock:<seat_id>` (constants.SeatLockPrefix). -/
def seatLockKey (seatID : Nat) : String := "seat_lock:" ++ toString seatID

/-- The value format `<user_id>:<intent_id>`. -/
def seatLockValue (userID : Nat) (intentID : String) : String :=
  toString userID ++ ":" ++ intentID

/-- SeatLockService.LockSeat: SetNX with TTL `SeatLockDuration` minutes;
fails when a live key already exists. -/
def lockSeat (st : RedisStore) (now : Nat) (seatID userID : Nat) (intentID : String) :
    Except String Unit × RedisStore :=
  if (redisGet st now (seatLockKey seatID)).isSome then
    (.error "seat is already locked", st)
  else
    (.ok (),
     redisSet st now (seatLockKey seatID) (seatLockValue userID intentID)
       (seatLockDuration * 60))

/-- SeatLockService.UnlockSeat: the Lua script deletes the key only when its
current value equals `<user_id>:<intent_id>` and returns 0 otherwise; the Go
wrapper inspects only the script's transport error, so the call reports
success whether or not the caller owned the lock. -/
def unlockSeat (st : RedisStore) (now : Nat) (seatID userID : Nat) (intentID : String) :
    Except String Unit × RedisStore :=
  if redisGet st now (seatLockKey seatID) = some (seatLockValue userID intentID) then
    (.ok (), redisDel st (seatLockKey seatID))
  else
    (.ok (), st)

/-- SeatLockService.ExtendLock: the Lua script resets the TTL only on a value
match and returns 0 otherwise; here the Go wrapper does check the script's
result and surfaces an error on 0. -/
def extendLock (st : RedisStore) (now : Nat) (seatID userID : Nat) (intentID : String) :
    Except String Unit × RedisStore :=
  if redisGet st now (seatLockKey seatID) = some (seatLockValue userID intentID) then
    (.ok (), redisExpire st now (seatLockKey seatID) (seatLockDuration * 60))
  else
    (.error "lock not found or not owned by user", st)

/-! Injectivity of the `<user_id>:<intent_id>` encoding: the decimal digits
of the user id contain no colon, so the first colon splits the value
unambiguously. -/

/-- Numeric value of a decimal digit character. -/
def charVal (c : Char) : Nat := c.toNat - 48

theorem digitChar_ne_colon : ∀ d : Nat, d < 10 → Nat.digitChar d ≠ ':' := by decide

theorem charVal_digitChar : ∀ d : Nat, d < 10 → charVal (Nat.digitChar d) = d := by decide

/-- Reading a digit list most-significant first. -/
def ofDigitsFrom (a : Nat) (l : List Char) : Nat :=
  l.foldl (fun acc c => 10 * acc + charVal c) a

theorem toDigitsCore_fold (fuel : Nat) : ∀ (n : Nat) (ds : List Char), n < fuel →
    ofDigitsFrom 0 (Nat.toDigitsCore 10 fuel n ds) = ofDigitsFrom n ds := by
  induction fuel with
  | zero => intro n ds h; omega
  | succ fuel ih =>
    intro n ds h
    unfold Nat.toDigitsCore
    dsimp only
    by_cases hz : n / 10 = 0
    · rw [if_pos hz]
      have hn10 : n < 10 := by omega
      show ofDigitsFrom (10 * 0 + charVal (Nat.digitChar (n % 10))) ds = ofDigitsFrom n ds
      rw [charVal_digitChar (n % 10) (Nat.mod_lt n (by norm_num))]
      congr 1
      omega
    · rw [if_neg hz]
      have hlt : n / 10 < fuel := by
        have h1 : n / 10 < n := Nat.div_lt_self (by omega) (by norm_num)
        omega
      rw [ih (n / 10) (Nat.digitChar (n % 10) :: ds) hlt]
      show ofDigitsFrom (10 * (n / 10) + charVal (Nat.digitChar (n % 10))) ds
        = ofDigitsFrom n ds
      rw [charVal_digitChar (n % 10) (Nat.mod_lt n (by norm_num))]
      congr 1
      omega

theorem repr_fold (n : Nat) : ofDigitsFrom 0 (Nat.repr n).data = n := by
  show ofDigitsFrom 0 (Nat.toDigitsCore 10 (n + 1) n []) = n
  rw [toDigitsCore_fold (n + 1) n [] (Nat.lt_succ_self n)]
  rfl

theorem toDigitsCore_ne_colon (fuel : Nat) : ∀ (n : Nat) (ds : List Char),
    (∀ c ∈ ds, c ≠ ':') → ∀ c ∈ Nat.toDigitsCore 10 fuel n ds, c ≠ ':' := by
  induction fuel with
  | zero =>
    intro n ds hds c hc
    exact hds c hc
  | succ fuel ih =>
    intro n ds hds c hc
    unfold Nat.toDigitsCore at hc
    dsimp only at hc
    by_cases hz : n / 10 = 0
    · rw [if_pos hz] at hc
      rcases List.mem_cons.1 hc with rfl | hc
      · exact digitChar_ne_colon _ (Nat.mod_lt n (by norm_num))
      · exact hds c hc
    · rw [if_neg hz] at hc
      refine ih (n / 10) _ ?_ c hc
      intro c' hc'
      rcases List.mem_cons.1 hc' with rfl | hc'
      · exact digitChar_ne_colon _ (Nat.mod_lt n (by norm_num))
      · exact hds c' hc'

theorem repr_ne_colon (n : Nat) : ∀ c ∈ (Nat.repr n).data, c ≠ ':' := by
  show ∀ c ∈ Nat.toDigitsCore 10 (n + 1) n [], c ≠ ':'
  exact toDigitsCore_ne_colon (n + 1) n [] (by simp)

theorem append_colon_inj : ∀ (l1 l2 d1 d2 : List Char),
    (∀ c ∈ l1, c ≠ ':') → (∀ c ∈ l2, c ≠ ':') →
    l1 ++ ':' :: d1 = l2 ++ ':' :: d2 → l1 = l2 ∧ d1 = d2 := by
  intro l1
  induction l1 with
  | nil =>
    intro l2 d1 d2 _ h2 heq
    cases l2 with
    | nil => simpa using heq
    | cons b l2' =>
      simp only [List.nil_append, List.cons_append] at heq
      injection heq with hb _
      exact absurd hb.symm (h2 b (List.mem_cons_self b l2'))
  | cons a l1' ih =>
    intro l2 d1 d2 h1 h2 heq
    cases l2 with
    | nil =>
      simp only [List.cons_append, List.nil_append] at heq
      injection heq with ha _
      exact absurd ha (h1 a (List.mem_cons_self a l1'))
    | cons b l2' =>
      simp only [List.cons_append] at heq
      injection heq with hab htail
      rcases ih l2' d1 d2 (fun c hc => h1 c (List.mem_cons_of_mem a hc))
        (fun c hc => h2 c (List.mem_cons_of_mem b hc)) htail with ⟨he1, he2⟩
      exact ⟨by rw [hab, he1], he2⟩

theorem seatLockValue_inj (u1 u2 : Nat) (i1 i2 : String)
    (h : seatLockValue u1 i1 = seatLockValue u2 i2) : u1 = u2 ∧ i1 = i2 := by
  unfold seatLockValue at h
  have hd := congrArg String.data h
  simp only [String.data_append] at hd
  rw [List.append_assoc, List.append_assoc, List.singleton_append,
    List.singleton_append] at hd
  have h12 := append_colon_inj (toString u1).data (toString u2).data i1.data i2.data
      (repr_ne_colon u1) (repr_ne_colon u2) hd
  constructor
  · have e1 : ofDigitsFrom 0 (Nat.repr u1).data = u1 := repr_fold u1
    have e2 : ofDigitsFrom 0 (Nat.repr u2).data = u2 := repr_fold u2
    have hdd : (Nat.repr u1).data = (Nat.repr u2).data := h12.1
    rw [← e1, ← e2, hdd]
  · have hdd : i1.data = i2.data := h12.2
    cases i1
    cases i2
    exact congrArg String.mk hdd

/-- A store holding only the lock of user 1, intent "7", on seat 1, taken at
time 0. -/
def c6store : RedisStore := (lockSeat { entries := [] } 0 1 1 "7").2

/-- C6 counterexample: a non-owner UnlockSeat call does not return a
not-owner error as claimed; the Go wrapper ignores the Lua script's 0 result
and reports success, although the key survives with the owner's value. -/
theorem C6_counterexample :
    (unlockSeat c6store 0 1 2 "9").1 = .ok ()
    ∧ redisGet (unlockSeat c6store 0 1 2 "9").2 0 (seatLockKey 1)
        = some (seatLockValue 1 "7") :=
  ⟨rfl, by decide⟩

/-- C6 (amended): ephemeral lock ownership.  While the key of seat `s` holds
value `u1:i1`, a caller with a different `(user_id, intent_id)` pair cannot
release or extend the lock: UnlockSeat leaves the store untouched (the key
keeps the owner's value) though it reports success rather than the claimed
not-owner error, and ExtendLock returns the not-owner error leaving the
store, and hence the TTL, unchanged; the owning pair's calls do delete the
key and do reset its TTL. -/
theorem C6_lock_ownership (st : RedisStore) (now s u1 u2 : Nat) (i1 i2 : String)
    (hheld : redisGet st now (seatLockKey s) = some (seatLockValue u1 i1))
    (hne : (u2, i2) ≠ (u1, i1)) :
    unlockSeat st now s u2 i2 = (.ok (), st)
    ∧ redisGet (unlockSeat st now s u2 i2).2 now (seatLockKey s)
        = some (seatLockValue u1 i1)
    ∧ extendLock st now s u2 i2 = (.error "lock not found or not owned by user", st)
    ∧ (unlockSeat st now s u1 i1).2 = redisDel st (seatLockKey s)
    ∧ (extendLock st now s u1 i1).2
        = redisExpire st now (seatLockKey s) (seatLockDuration * 60) := by
  have hvne : seatLockValue u2 i2 ≠ seatLockValue u1 i1 := by
    intro hcon
    rcases seatLockValue_inj u2 u1 i2 i1 hcon with ⟨hu, hi⟩
    exact hne (by rw [hu, hi])
  have hmiss : ¬ redisGet st now (seatLockKey s) = some (seatLockValue u2 i2) := by
    rw [hheld]
    intro hcon
    exact hvne (Option.some.inj hcon).symm
  have hu1 : unlockSeat st now s u2 i2 = (.ok (), st) := by
    unfold unlockSeat
    rw [if_neg hmiss]
  refine ⟨hu1, ?_, ?_, ?_, ?_⟩
  · rw [hu1]
    exact hheld
  · unfold extendLock
    rw [if_neg hmiss]
  · unfold unlockSeat
    rw [if_pos hheld]
  · unfold extendLock
    rw [if_pos hheld]

/-- Witness for the amended C6 at the concrete store. -/
theorem C6_lock_ownership_witness :
    redisGet c6store 0 (seatLockKey 1) = some (seatLockValue 1 "7")
    ∧ ((2, "9") : Nat × String) ≠ (1, "7")
    ∧ unlockSeat c6store 0 1 2 "9" = (.ok (), c6store)
    ∧ extendLock c6store 0 1 2 "9"
        = (.error "lock not found or not owned by user", c6store) :=
  ⟨by decide, by decide,
   (C6_lock_ownership c6store 0 1 1 2 "7" "9" (by decide) (by decide)).1,
   (C6_lock_ownership c6store 0 1 1 2 "7" "9" (by decide) (by decide)).2.2.1⟩

/-! The waitlist engine, after repository.WaitlistRepository
(src/unnamed/part_007) and services.WaitlistService (src/unnamed/part_001).
Serialized entries are modelled structurally (JSON round-trips faithfully,
and LRem compares whole serialized values, here whole entries).  The
per-user key carries the 24-hour TTL the source sets. -/

structure WLEntry where
  userID : Nat
  eventID : Nat
  joinedAt : Nat
  position : Nat
  notifiedAt : Option Nat
deriving DecidableEq, Repr

structure WLUserKey where
  userID : Nat
  eventID : Nat
  entry : WLEntry
  expiresAt : Nat
deriving DecidableEq, Repr

structure RedisWL where
  queues : List (Nat × List WLEntry)
  userKeys : List WLUserKey
deriving DecidableEq, Repr

/-- The list under `waitlist:event:<E>`. -/
def getQueue (st : RedisWL) (eventID : Nat) : List WLEntry :=
  ((st.queues.find? (fun q => q.1 == eventID)).map (·.2)).getD []

def setQueue (st : RedisWL) (eventID : Nat) (l : List WLEntry) : RedisWL :=
  { st with queues := (eventID, l) :: st.queues.filter (fun q => q.1 != eventID) }

/-- The live value under `waitlist:user:<U>:event:<E>` (24-hour TTL). -/
def lookupUserKey (st : RedisWL) (now userID eventID : Nat) : Option WLEntry :=
  (st.userKeys.find? (fun k => k.userID == userID && k.eventID == eventID
      && now < k.expiresAt)).map (·.entry)

def setUserKey (st : RedisWL) (now userID eventID : Nat) (entry : WLEntry) : RedisWL :=
  { st with userKeys :=
      { userID := userID, eventID := eventID, entry := entry, expiresAt := now + 24 * 60 }
      :: st.userKeys.filter (fun k => !(k.userID == userID && k.eventID == eventID)) }

/-- The position recomputation of GetWaitlistPosition: scan the queue for the
first element of the user and use its 1-based index (the stored position is
kept when the user is not in the list). -/
def recomputePosition (st : RedisWL) (eventID userID : Nat) (entry : WLEntry) : WLEntry :=
  match (getQueue st eventID).findIdx? (fun q => q.userID == userID) with
  | some i => { entry with position := i + 1 }
  | none => entry

/-- WaitlistRepository.GetWaitlistPosition (src/unnamed/part_007, lines
88-124). -/
def getWaitlistPosition (st : RedisWL) (now userID eventID : Nat) : Option WLEntry :=
  (lookupUserKey st now userID eventID).map (recomputePosition st eventID userID)

/-- WaitlistRepository.JoinWaitlist (src/unnamed/part_007, lines 31-85):
when the user key exists the stored entry is returned with its position
recomputed; otherwise the entry is pushed (its serialized list element still
has position 0), the user key is set, and then set again with
position = new list length. -/
def joinWaitlistRepo (st : RedisWL) (now userID eventID : Nat) : WLEntry × RedisWL :=
  if (lookupUserKey st now userID eventID).isSome then
    ((getWaitlistPosition st now userID eventID).getD
      { userID := userID, eventID := eventID, joinedAt := now, position := 0,
        notifiedAt := none }, st)
  else
    let entry0 : WLEntry :=
      { userID := userID, eventID := eventID, joinedAt := now, position := 0,
        notifiedAt := none }
    let queue1 := getQueue st eventID ++ [entry0]
    let st1 := setQueue st eventID queue1
    let st2 := setUserKey st1 now userID eventID entry0
    let entry := { entry0 with position := queue1.length }
    let st3 := setUserKey st2 now userID eventID entry
    (entry, st3)

/-- WaitlistRepository.GetNextInWaitlist (src/unnamed/part_007, lines
154-173): a pure peek of the queue head (LIndex 0); nothing is removed. -/
def getNextInWaitlist (st : RedisWL) (eventID : Nat) : Option WLEntry :=
  ((getQueue st eventID).head?).map (fun e => { e with position := 1 })

/-- WaitlistService.JoinWaitlist (src/unnamed/part_001, lines 28-75): checks
the event is active and full, joins through the repository, and then
unconditionally inserts a `status = waiting` mirror row, also when the
repository returned an existing entry idempotently. -/
def serviceJoinWaitlist (db : DBState) (st : RedisWL) (now userID eventID : Nat) :
    Except String WLEntry × DBState × RedisWL :=
  match db.events.find? (fun e => e.id == eventID) with
  | none => (.error "failed to get event", db, st)
  | some event =>
    if event.status ≠ eventStatusActive then
      (.error "event is not active", db, st)
    else if 0 < event.availableSeats then
      (.error "seats are still available for this event, please book directly instead of joining waitlist", db, st)
    else
      let je := joinWaitlistRepo st now userID eventID
      let row : QueueRow :=
        { id := db.nextQueueID, eventID := eventID, userID := userID,
          queuePosition := je.1.position, status := "waiting", joinedAt := je.1.joinedAt,
          activeAt := none, expiresAt := none }
      (.ok je.1,
       { db with queueRows := db.queueRows ++ [row], nextQueueID := db.nextQueueID + 1 },
       je.2)

/-- The mirror update each ProcessSeatAvailability iteration performs for the
user taken from the queue head (gorm Updates WHERE user_id, event_id,
status = waiting; matching zero rows raises no error). -/
def markQueueRowActive (db : DBState) (now eventID userID : Nat) : DBState :=
  { db with queueRows := db.queueRows.map (fun r =>
      if r.userID == userID && r.eventID == eventID && r.status == "waiting" then
        { r with status := "active", activeAt := some now, expiresAt := some (now + 10) }
      else r) }

/-- The loop of WaitlistService.ProcessSeatAvailability (src/unnamed/
part_001, lines 132-169): each iteration re-reads the head of the queue
without removing it and appends the resulting entry. -/
def processLoop (st : RedisWL) (now eventID : Nat) :
    Nat → DBState → List WLEntry × DBState
  | 0, db => ([], db)
  | k + 1, db =>
    match getNextInWaitlist st eventID with
    | none => ([], db)
    | some nextUser =>
      let db1 := markQueueRowActive db now eventID nextUser.userID
      let r := processLoop st now eventID k db1
      ({ userID := nextUser.userID, eventID := nextUser.eventID,
         joinedAt := nextUser.joinedAt, position := nextUser.position,
         notifiedAt := none } :: r.1, r.2)

/-- WaitlistService.ProcessSeatAvailability (src/unnamed/part_001, lines
123-172). -/
def processSeatAvailability (db : DBState) (st : RedisWL) (now eventID : Nat)
    (availableSeats : Int) : List WLEntry × DBState :=
  if availableSeats ≤ 0 then ([], db)
  else processLoop st now eventID availableSeats.toNat db

/-- Modelled from the spec: the BookingService holding the WaitlistService
(constructed by the container as
`NewBookingService(bookingRepo, seatLockService, waitlistService)`) is code
of this repository that is not under src/; src/unnamed/part_002 is an older
two-argument BookingService without the waitlist.  Per spec section 4.2,
CancelBooking: "On commit, if a waitlist exists for the event, invoke the
Waitlist Engine's ProcessAvailability(event_id, 1)."  The repository
transaction and ProcessSeatAvailability themselves are translated from the
source. -/
def serviceCancelBooking (db : DBState) (st : RedisWL) (now bookingID userID : Nat) :
    Except AppError Unit × DBState × RedisWL :=
  let eventID := ((db.bookings.find? (fun b => b.id == bookingID && b.userID == userID
      && b.status == bookingStatusConfirmed)).map (·.eventID)).getD 0
  match cancelBooking db now bookingID userID with
  | (.error e, db') => (.error e, db', st)
  | (.ok _, db') =>
    if 0 < (getQueue st eventID).length then
      (.ok (), (processSeatAvailability db' st now eventID 1).2, st)
    else
      (.ok (), db', st)

/-- ProcessSeatAvailability with one seat on a non-empty queue: peek the
head, mark its mirror row active, return one entry. -/
theorem processSeat_one (db : DBState) (st : RedisWL) (now e : Nat)
    (hd : WLEntry) (rest : List WLEntry) (hq : getQueue st e = hd :: rest) :
    processSeatAvailability db st now e 1
      = ([{ userID := hd.userID, eventID := hd.eventID, joinedAt := hd.joinedAt,
            position := 1, notifiedAt := none }],
         markQueueRowActive db now e hd.userID) := by
  unfold processSeatAvailability
  rw [if_neg (by norm_num)]
  show processLoop st now e (Int.toNat 1) db = _
  have h1 : (Int.toNat 1) = 1 := rfl
  rw [h1]
  unfold processLoop
  unfold getNextInWaitlist
  rw [hq]
  dsimp only [List.head?, Option.map_some]
  unfold processLoop
  rfl

/-- C7: Cancellation promotes the waitlist.  For a confirmed booking of the
caller on an event that has not started and has a non-empty waitlist with
head `hd`, the (spec-modelled) service-level CancelBooking commits the
repository transaction (incrementing `available_seats` and freeing the seat)
and then invokes ProcessAvailability(event_id, 1), so the head-of-queue
user's `status = waiting` mirror rows are marked `status = active` with
`expires_at = now + 10` minutes while the Redis queue, hence the queue
order, is unchanged. -/
theorem C7_cancel_promotes_waitlist (db : DBState) (st : RedisWL)
    (now bid uid : Nat) (booking : Booking) (ev : Event)
    (hd : WLEntry) (rest : List WLEntry)
    (hfind : db.bookings.find? (fun b => b.id == bid && b.userID == uid
        && b.status == bookingStatusConfirmed) = some booking)
    (hev : db.events.find? (fun e => e.id == booking.eventID) = some ev)
    (hstart : ¬ ev.startTime < now)
    (hq : getQueue st booking.eventID = hd :: rest) :
    (cancelBooking db now bid uid).1 = .ok ()
    ∧ serviceCancelBooking db st now bid uid
        = (.ok (),
           markQueueRowActive (cancelBooking db now bid uid).2 now booking.eventID
             hd.userID, st)
    ∧ (markQueueRowActive (cancelBooking db now bid uid).2 now booking.eventID
        hd.userID).queueRows
        = db.queueRows.map (fun r =>
            if r.userID == hd.userID && r.eventID == booking.eventID
                && r.status == "waiting" then
              { r with status := "active", activeAt := some now, expiresAt := some (now + 10) }
            else r)
    ∧ { ev with availableSeats := ev.availableSeats + 1 }
        ∈ (cancelBooking db now bid uid).2.events
    ∧ (∀ s ∈ (cancelBooking db now bid uid).2.seats,
        s.id = booking.seatID → s.isAvailable = true) := by
  have hok : (cancelBooking db now bid uid).1 = .ok () := by
    unfold cancelBooking
    rw [hfind]
    dsimp only
    rw [hev]
    simp only [Option.getD_some]
    rw [if_neg hstart]
  have hqrows : (cancelBooking db now bid uid).2.queueRows = db.queueRows := by
    unfold cancelBooking
    rw [hfind]
    dsimp only
    rw [hev]
    simp only [Option.getD_some]
    rw [if_neg hstart]
  have hseats : (cancelBooking db now bid uid).2.seats
      = db.seats.map (fun s =>
          if s.id == booking.seatID then { s with isAvailable := true } else s) := by
    unfold cancelBooking
    rw [hfind]
    dsimp only
    rw [hev]
    simp only [Option.getD_some]
    rw [if_neg hstart]
  have hevents : (cancelBooking db now bid uid).2.events
      = db.events.map (fun e =>
          if e.id == ev.id then { e with availableSeats := e.availableSeats + 1 }
          else e) := by
    unfold cancelBooking
    rw [hfind]
    dsimp only
    rw [hev]
    simp only [Option.getD_some]
    rw [if_neg hstart]
  refine ⟨hok, ?_, ?_, ?_, ?_⟩
  · unfold serviceCancelBooking
    dsimp only
    have hred : ((db.bookings.find? (fun b => b.id == bid && b.userID == uid
        && b.status == bookingStatusConfirmed)).map (·.eventID)).getD 0
        = booking.eventID := by
      rw [hfind]
      rfl
    rw [hred]
    rcases hcb2 : cancelBooking db now bid uid with ⟨res, db2⟩
    have hres : res = .ok () := by
      have := hok
      rw [hcb2] at this
      exact this
    subst hres
    dsimp only
    rw [if_pos (by rw [hq]; simp)]
    rw [processSeat_one db2 st now booking.eventID hd rest hq]
  · show ((cancelBooking db now bid uid).2.queueRows.map (fun r =>
        if r.userID == hd.userID && r.eventID == booking.eventID
            && r.status == "waiting" then
          { r with status := "active", activeAt := some now, expiresAt := some (now + 10) }
        else r))
      = db.queueRows.map (fun r =>
        if r.userID == hd.userID && r.eventID == booking.eventID
            && r.status == "waiting" then
          { r with status := "active", activeAt := some now, expiresAt := some (now + 10) }
        else r)
    rw [hqrows]
  · rw [hevents]
    have hevm : ev ∈ db.events := List.mem_of_find?_eq_some hev
    exact List.mem_map.2 ⟨ev, hevm, by simp⟩
  · intro s' hs' hsid
    rw [hseats] at hs'
    rcases List.mem_map.1 hs' with ⟨s, hs, rfl⟩
    by_cases hcase : s.id = booking.seatID
    · simp only [hcase, beq_self_eq_true, if_true]
    · have hbeq : (s.id == booking.seatID) = false := by simp [hcase]
      rw [hbeq, if_neg (by simp)] at hsid ⊢
      exact absurd hsid hcase

/-- A confirmed booking of user 4 on event 5, seat 9. -/
def c7booking : Booking :=
  { id := 1, userID := 4, eventID := 5, seatID := 9, bookingIntentID := some 1,
    status := bookingStatusConfirmed, paymentStatus := paymentStatusPaid,
    paymentID := "pay-a", totalAmount := 50, bookedAt := 0, cancelledAt := none }

def c7ev : Event :=
  { id := 5, venueID := 1, startTime := 1000, status := eventStatusActive,
    availableSeats := 0 }

/-- User 2 waits at the head of event 5's queue. -/
def c7hd : WLEntry :=
  { userID := 2, eventID := 5, joinedAt := 100, position := 0, notifiedAt := none }

def c7db : DBState :=
  { venues := [{ id := 1, capacity := 1 }],
    events := [c7ev],
    seats := [{ id := 9, eventID := 5, price := 50, isAvailable := false,
                isLocked := false, lockedAt := none, lockedBy := none }],
    intents := [], bookings := [c7booking],
    queueRows := [{ id := 1, eventID := 5, userID := 2, queuePosition := 1,
                    status := "waiting", joinedAt := 100, activeAt := none,
                    expiresAt := none }],
    nextIntentID := 1, nextBookingID := 2, nextQueueID := 2 }

def c7st : RedisWL := { queues := [(5, [c7hd])], userKeys := [] }

/-- Witness for C7 at a concrete store: cancelling user 4's booking promotes
the waiting user 2. -/
theorem C7_cancel_promotes_waitlist_witness :
    getQueue c7st c7booking.eventID = [c7hd]
    ∧ serviceCancelBooking c7db c7st 30 1 4
        = (.ok (),
           markQueueRowActive (cancelBooking c7db 30 1 4).2 30 c7booking.eventID
             c7hd.userID, c7st) :=
  ⟨by decide,
   (C7_cancel_promotes_waitlist c7db c7st 30 1 4 c7booking c7ev c7hd []
      (by decide) (by decide) (by decide) (by decide)).2.1⟩

/-- An active, sold-out event for the waitlist scenarios. -/
def c8ev : Event :=
  { id := 5, venueID := 1, startTime := 1000, status := eventStatusActive,
    availableSeats := 0 }

def c8db : DBState :=
  { venues := [{ id := 1, capacity := 1 }], events := [c8ev], seats := [],
    intents := [], bookings := [], queueRows := [],
    nextIntentID := 1, nextBookingID := 1, nextQueueID := 1 }

def c8st : RedisWL := { queues := [], userKeys := [] }

/-- The store after user 9 joined event 5's waitlist once at time 20. -/
def c8db1 : DBState := (serviceJoinWaitlist c8db c8st 20 9 5).2.1

def c8st1 : RedisWL := (serviceJoinWaitlist c8db c8st 20 9 5).2.2

/-- The entry user 9's key holds after the first join. -/
def c8stored : WLEntry :=
  { userID := 9, eventID := 5, joinedAt := 20, position := 1, notifiedAt := none }

/-- C8 counterexample: joining twice leaves a single element in the Redis
list, but the service inserts a `status = waiting` mirror row on each call,
so after the second (idempotent) join two waiting mirror rows exist for the
same user and event, contradicting the claim that no duplicate mirror row is
created. -/
theorem C8_counterexample :
    ((serviceJoinWaitlist c8db1 c8st1 21 9 5).2.1.queueRows.filter
        (fun r => r.userID == 9 && r.eventID == 5 && r.status == "waiting")).length = 2
    ∧ (getQueue (serviceJoinWaitlist c8db1 c8st1 21 9 5).2.2 5).length = 1 := by
  decide

/-- C8 (amended): idempotent waitlist join, except for the durable mirror.
For a user already enqueued (live per-user key holding the stored entry) on
an active, full event, a second JoinWaitlist returns the stored entry with
its position recomputed from the list, pushes nothing onto the per-event
FIFO list and leaves the per-user key untouched — but the service layer
inserts one more `status = waiting` mirror row into the relational store on
every call. -/
theorem C8_idempotent_join (db : DBState) (st : RedisWL) (now u e : Nat)
    (ev : Event) (stored : WLEntry)
    (hev : db.events.find? (fun x => x.id == e) = some ev)
    (hactive : ev.status = eventStatusActive)
    (hfull : ¬ 0 < ev.availableSeats)
    (hkey : lookupUserKey st now u e = some stored) :
    serviceJoinWaitlist db st now u e
      = (.ok (recomputePosition st e u stored),
         { db with
           queueRows := db.queueRows ++
             [⟨db.nextQueueID, e, u, (recomputePosition st e u stored).position,
               "waiting", (recomputePosition st e u stored).joinedAt, none, none⟩],
           nextQueueID := db.nextQueueID + 1 },
         st) := by
  unfold serviceJoinWaitlist
  rw [hev]
  dsimp only
  rw [if_neg (show ¬(ev.status ≠ eventStatusActive) from fun h => h hactive)]
  rw [if_neg hfull]
  have hjr : joinWaitlistRepo st now u e = (recomputePosition st e u stored, st) := by
    unfold joinWaitlistRepo
    rw [if_pos (by rw [hkey]; rfl)]
    unfold getWaitlistPosition
    rw [hkey]
    rfl
  rw [hjr]

/-- Witness for the amended C8: user 9's second join at time 21. -/
theorem C8_idempotent_join_witness :
    lookupUserKey c8st1 21 9 5 = some c8stored
    ∧ serviceJoinWaitlist c8db1 c8st1 21 9 5
      = (.ok (recomputePosition c8st1 5 9 c8stored),
         { c8db1 with
           queueRows := c8db1.queueRows ++
             [⟨c8db1.nextQueueID, 5, 9, (recomputePosition c8st1 5 9 c8stored).position,
               "waiting", (recomputePosition c8st1 5 9 c8stored).joinedAt, none, none⟩],
           nextQueueID := c8db1.nextQueueID + 1 },
         c8st1) :=
  ⟨by decide,
   C8_idempotent_join c8db1 c8st1 21 9 5 c8ev c8stored
     (by decide) (by decide) (by decide) (by decide)⟩

/-- Two users waiting on event 5: user 2 at the head, user 3 behind. -/
def c9st : RedisWL :=
  { queues := [(5, [{ userID := 2, eventID := 5, joinedAt := 100, position := 0,
                      notifiedAt := none },
                    { userID := 3, eventID := 5, joinedAt := 101, position := 0,
                      notifiedAt := none }])],
    userKeys := [] }

def c9db : DBState :=
  { venues := [{ id := 1, capacity := 2 }],
    events := [{ id := 5, venueID := 1, startTime := 1000,
                 status := eventStatusActive, availableSeats := 0 }],
    seats := [], intents := [], bookings := [],
    queueRows := [{ id := 1, eventID := 5, userID := 2, queuePosition := 1,
                    status := "waiting", joinedAt := 100, activeAt := none,
                    expiresAt := none },
                  { id := 2, eventID := 5, userID := 3, queuePosition := 2,
                    status := "waiting", joinedAt := 101, activeAt := none,
                    expiresAt := none }],
    nextIntentID := 1, nextBookingID := 1, nextQueueID := 3 }

/-- C9 (evaluation at the failing input): with two waiting users and
`n = 2`, ProcessSeatAvailability returns the same head user twice instead of
the first two distinct users in FIFO order: each loop iteration peeks the
unchanged queue head (GetNextInWaitlist is LIndex 0 and nothing is ever
removed), so user 2 is activated and returned twice while user 3's mirror
row stays `waiting` and is never activated. -/
theorem C9_process_availability_bug :
    ((processSeatAvailability c9db c9st 30 5 2).1.map (·.userID) = [2, 2])
    ∧ (∃ r ∈ (processSeatAvailability c9db c9st 30 5 2).2.queueRows,
        r.userID = 2 ∧ r.status = "active" ∧ r.expiresAt = some 40)
    ∧ (∃ r ∈ (processSeatAvailability c9db c9st 30 5 2).2.queueRows,
        r.userID = 3 ∧ r.status = "waiting")
    ∧ ¬ (∃ r ∈ (processSeatAvailability c9db c9st 30 5 2).2.queueRows,
        r.userID = 3 ∧ r.status = "active") := by
  decide

end Evently
